import Mathlib

/-!
# INZAN proverb server (`backend/server.js`)

A shallow embedding of the text normaliser, the load-time annotation of the
proverb collection and the `/api/proverbs` request handler, followed by the
properties proved about them.

Modelling conventions.

* A JavaScript string is the list of its code points (`JSString`).  Only
  well-formed strings are represented; on those, substring tests on UTF-16
  code units and on code points agree, and every pattern used by the source
  lies in the Basic Multilingual Plane.
* An absent value (`undefined`, `null`) is `none`.
* A JavaScript number (`JSNumber`) is `NaN`, an infinity or a finite integer;
  the finite numbers that the handler meets are integer-valued doubles.
  `JSNumber.ofInt` rounds an integer to the nearest double (53 significant
  bits, ties to even, overflow to infinity); products and sums are the exact
  results rounded that way, as IEEE 754 arithmetic gives them.
* A JavaScript array has fewer than `2 ^ 32` elements; where a property
  depends on it, the bound is a hypothesis on the length of the list.
* The Unicode operations of the runtime (`toLowerCase`, `normalize("NFD")`)
  depend on the Unicode Character Database.  They are taken as a parameter
  `UnicodeData`; `normalizeNFD` is the canonical decomposition of UAX #15
  (full decomposition, then canonical ordering) over that parameter.  The
  instance `ucd` holds the database values for a few blocks and is used for
  concrete inputs drawn from those blocks.
-/

namespace INZAN

/-! ## Strings -/

/-- A JavaScript string, as the list of its code points. -/
abbrev JSString := List Nat

/-- The code points of a string literal. -/
def str (s : String) : JSString := s.toList.map Char.toNat

/-- A JavaScript number as far as the handler needs it: `NaN`, an infinity, or
a finite integer.  The finite numbers that the handler computes with are the
integer-valued IEEE 754 doubles; the sign of zero is not represented (it is
not observable in the response). -/
inductive JSNumber where
  | nan
  | inf (negative : Bool)
  | fin (n : Int)
deriving DecidableEq

/-- Floor of the binary logarithm of `n`, by halving at most `fuel` times. -/
def log2Fuel : Nat → Nat → Nat
  | 0, _ => 0
  | fuel + 1, n => if n < 2 then 0 else log2Fuel fuel (n / 2) + 1

/-- Rounding of `n` to a multiple of `2 ^ e`, to nearest, ties to the even
multiple. -/
def roundAt (e n : Nat) : Nat :=
  (if 2 ^ (e - 1) < n % 2 ^ e ∨ (n % 2 ^ e = 2 ^ (e - 1) ∧ (n / 2 ^ e) % 2 = 1)
    then n / 2 ^ e + 1 else n / 2 ^ e) * 2 ^ e

/-- The magnitude of the IEEE 754 double nearest to the natural number `n`
(53 significant bits, round to nearest, ties to even); `none` when the
rounded value reaches `2 ^ 1024`, which overflows to infinity. -/
def roundNat (n : Nat) : Option Nat :=
  if n < 2 ^ 53 then some n
  else if roundAt (log2Fuel n n - 52) n < 2 ^ 1024 then some (roundAt (log2Fuel n n - 52) n)
  else none

/-- The Number value of an integer: the nearest double, or an infinity. -/
def JSNumber.ofInt (i : Int) : JSNumber :=
  match roundNat i.natAbs with
  | some m => JSNumber.fin (if i < 0 then -(m : Int) else (m : Int))
  | none => JSNumber.inf (decide (i < 0))

/-- ECMAScript `WhiteSpace` and `LineTerminator` code points, the ones removed by
`String.prototype.trim` and skipped by `parseInt`. -/
def isWhiteSpace (c : Nat) : Bool :=
  c == 0x09 || c == 0x0A || c == 0x0B || c == 0x0C || c == 0x0D || c == 0x20 ||
  c == 0xA0 || c == 0x1680 || (0x2000 ≤ c && c ≤ 0x200A) || c == 0x2028 ||
  c == 0x2029 || c == 0x202F || c == 0x205F || c == 0x3000 || c == 0xFEFF

/-- Model of `String.prototype.trim`. -/
def trim (s : JSString) : JSString :=
  (s.dropWhile isWhiteSpace).rdropWhile isWhiteSpace

/-- Model of `String.prototype.includes`: `needle` occurs in `hay` as a contiguous
block.  The empty needle occurs in every string. -/
def includes : JSString → JSString → Bool
  | [], needle => needle.isEmpty
  | c :: hay, needle => needle.isPrefixOf (c :: hay) || includes hay needle

/-- Model of `String.prototype.split` with a separator of one character: the
pieces between successive separators, empty pieces included. -/
def split (sep : Nat) : JSString → List JSString
  | [] => [[]]
  | c :: s =>
    if c = sep then [] :: split sep s
    else
      match split sep s with
      | [] => [[c]]
      | w :: ws => (c :: w) :: ws

/-! ## Unicode operations -/

/-- The part of the runtime that depends on the Unicode Character Database. -/
structure UnicodeData where
  /-- `String.prototype.toLowerCase`. -/
  toLowerCase : JSString → JSString
  /-- Full canonical decomposition of one code point. -/
  decomposition : Nat → List Nat
  /-- Canonical combining class of a code point (`0` for a starter). -/
  combiningClass : Nat → Nat

/-- One step of the canonical ordering algorithm: put `c` in front of an ordered
string, moving it to the right past every non-starter of strictly smaller
combining class. -/
def placeMark (ccc : Nat → Nat) (c : Nat) : List Nat → List Nat
  | [] => [c]
  | d :: l =>
    if 0 < ccc d ∧ ccc d < ccc c then d :: placeMark ccc c l
    else c :: d :: l

/-- Canonical ordering: every maximal run of non-starters is sorted by
combining class, keeping the order of marks of equal class. -/
def canonicalOrder (ccc : Nat → Nat) : List Nat → List Nat
  | [] => []
  | c :: s => placeMark ccc c (canonicalOrder ccc s)

/-- Model of `String.prototype.normalize("NFD")`. -/
def normalizeNFD (U : UnicodeData) (s : JSString) : JSString :=
  canonicalOrder U.combiningClass (s.flatMap U.decomposition)

/-! ## `normalizeText` (server.js, lines 16-23) -/

/-- The character class of the regular expression `/[ǧǧčṣṭẓ]/g` (the source
lists `ǧ` twice). -/
def specialClass : List Nat := [0x01E7, 0x01E7, 0x010D, 0x1E63, 0x1E6D, 0x1E93]

/-- The object literal `{ 'ǧ': 'g', 'č': 'c', 'ṣ': 's', 'ṭ': 't', 'ẓ': 'z' }`. -/
def specialMap : List (Nat × JSString) :=
  [(0x01E7, [0x67]), (0x010D, [0x63]), (0x1E63, [0x73]), (0x1E6D, [0x74]), (0x1E93, [0x7A])]

/-- The replacement callback `c => ({...}[c])`; a missing key would be rendered
as the text `undefined`. -/
def replacement (c : Nat) : JSString :=
  (specialMap.lookup c).getD (str "undefined")

/-- The first `replace` of `normalizeText`: every character of the class is
replaced through the table. -/
def replaceSpecial (s : JSString) : JSString :=
  s.flatMap fun c => if c ∈ specialClass then replacement c else [c]

/-- The second `replace` of `normalizeText`: `/[\u0300-\u036f]/g` to the empty string. -/
def stripMarks (s : JSString) : JSString :=
  s.filter fun c => !(0x0300 ≤ c && c ≤ 0x036F)

/-- The function `normalizeText` of the source. -/
def normalizeText (U : UnicodeData) (text : Option JSString) : JSString :=
  match text with
  | none => []
  | some [] => []
  | some s => trim (stripMarks (normalizeNFD U (replaceSpecial (U.toLowerCase s))))

/-! ## Load-time annotation (server.js, lines 26-32) -/

/-- A JSON value other than an array or an object. -/
inductive JSValue where
  | null
  | bool (b : Bool)
  | num (n : Int)
  | str (s : JSString)
deriving DecidableEq

/-- One element of `proverbsData`: the three text fields read by the server,
each a string or absent, and the other properties of the JSON object. -/
structure RawProverb where
  kabyle : Option JSString
  francais : Option JSString
  theme : Option JSString
  rest : List (String × JSValue)
deriving DecidableEq

/-- One element of `proverbs`: the object `{...p, id, kabyle_norm, francais_norm,
theme_norm}`.  `raw` is the spread source `p`; the four other fields are the
properties written after the spread. -/
structure Proverb where
  raw : RawProverb
  id : Nat
  kabyle_norm : JSString
  francais_norm : JSString
  theme_norm : JSString
deriving DecidableEq

/-- The constant `proverbs`: `proverbsData.map((p, index) => ...)`. -/
def loadProverbs (U : UnicodeData) (proverbsData : List RawProverb) : List Proverb :=
  proverbsData.mapIdx fun index p =>
    Proverb.mk p index (normalizeText U p.kabyle) (normalizeText U p.francais)
      (normalizeText U p.theme)

/-! ## The handler of `GET /api/proverbs` (server.js, lines 42-78) -/

/-- The query parameters `req.query`: each is a string or absent. -/
structure Query where
  search : Option JSString
  theme : Option JSString
  page : Option JSString
  limit : Option JSString
deriving DecidableEq

/-- The JSON response. -/
structure Response where
  totalResults : Nat
  currentPage : JSNumber
  proverbs : List Proverb
deriving DecidableEq

/-- Model of `parseInt(s, 10)`: leading white space is skipped, a sign is read,
then the longest run of decimal digits; `NaN` when there is no digit, and
otherwise the Number value of the integer that the digits denote (the exact
value of the digits, rounded to a double). -/
def parseInt10 (s : JSString) : JSNumber :=
  let t := s.dropWhile isWhiteSpace
  let negative := t.head? == some 0x2D
  let u := if t.head? == some 0x2D || t.head? == some 0x2B then t.tail else t
  let digits := u.takeWhile fun c => 0x30 ≤ c && c ≤ 0x39
  if digits.isEmpty then JSNumber.nan
  else
    let n : Int := digits.foldl (fun a c => 10 * a + (c - 0x30 : Nat)) (0 : Nat)
    JSNumber.ofInt (if negative then -n else n)

/-- Multiplication of JavaScript numbers: the exact product rounded to a
double; `0 * Infinity` and every product with `NaN` are `NaN`. -/
def JSNumber.mul : JSNumber → JSNumber → JSNumber
  | JSNumber.fin a, JSNumber.fin b => JSNumber.ofInt (a * b)
  | JSNumber.fin a, JSNumber.inf t =>
    if a = 0 then JSNumber.nan else JSNumber.inf (xor (decide (a < 0)) t)
  | JSNumber.inf s, JSNumber.fin b =>
    if b = 0 then JSNumber.nan else JSNumber.inf (xor s (decide (b < 0)))
  | JSNumber.inf s, JSNumber.inf t => JSNumber.inf (xor s t)
  | _, _ => JSNumber.nan

/-- Addition of JavaScript numbers: the exact sum rounded to a double;
`Infinity + (-Infinity)` and every sum with `NaN` are `NaN`. -/
def JSNumber.add : JSNumber → JSNumber → JSNumber
  | JSNumber.fin a, JSNumber.fin b => JSNumber.ofInt (a + b)
  | JSNumber.fin _, JSNumber.inf t => JSNumber.inf t
  | JSNumber.inf s, JSNumber.fin _ => JSNumber.inf s
  | JSNumber.inf s, JSNumber.inf t => if s = t then JSNumber.inf s else JSNumber.nan
  | _, _ => JSNumber.nan

/-- Relative index of `Array.prototype.slice`: `NaN` and `-Infinity` are `0`,
`+Infinity` is `len`, a negative index counts from the end, and the result is
clamped to `[0, len]`. -/
def relativeIndex (len : Nat) : JSNumber → Nat
  | JSNumber.nan => 0
  | JSNumber.inf true => 0
  | JSNumber.inf false => len
  | JSNumber.fin i => if i < 0 then (len + i).toNat else min i.toNat len

/-- Model of `Array.prototype.slice(start, end)`. -/
def slice {α : Type} (l : List α) (startIndex endIndex : JSNumber) : List α :=
  let k := relativeIndex l.length startIndex
  let final := relativeIndex l.length endIndex
  (l.drop k).take (final - k)

/-- The constant `keywords` of the handler (lines 50-51). -/
def keywords (U : UnicodeData) (search : JSString) : List JSString :=
  let normalizedSearch := normalizeText U (some search)
  (split 0x20 normalizedSearch).filter fun k => 0 < k.length

/-- The template literal of line 53. -/
def searchableText (p : Proverb) : JSString :=
  p.kabyle_norm ++ [0x20] ++ p.francais_norm ++ [0x20] ++ p.theme_norm

/-- Step 1 of the handler (lines 49-56). -/
def searchFilter (U : UnicodeData) (search : Option JSString) (results : List Proverb) :
    List Proverb :=
  match search with
  | none => results
  | some [] => results
  | some s =>
    results.filter fun p => (keywords U s).all fun keyword => includes (searchableText p) keyword

/-- Step 2 of the handler (lines 59-62). -/
def themeFilter (U : UnicodeData) (theme : Option JSString) (results : List Proverb) :
    List Proverb :=
  match theme with
  | none => results
  | some [] => results
  | some t =>
    if t ≠ str "tous" then
      results.filter fun p => includes p.theme_norm (normalizeText U (some t))
    else results

/-- Steps 3 and 4 of the handler (lines 67-77), from the parsed numbers on. -/
def paginate (results : List Proverb) (pageNum limitNum : JSNumber) : Response :=
  let startIndex := JSNumber.mul pageNum limitNum
  let endIndex := JSNumber.add startIndex limitNum
  let paginatedResults := slice results startIndex endIndex
  Response.mk results.length pageNum paginatedResults

/-- The handler from the parsed page numbers on: filters, then pagination. -/
def respond (U : UnicodeData) (proverbs : List Proverb) (search theme : Option JSString)
    (pageNum limitNum : JSNumber) : Response :=
  paginate (themeFilter U theme (searchFilter U search proverbs)) pageNum limitNum

/-- The handler of `GET /api/proverbs`; `page` defaults to `0` and `limit` to `50`. -/
def handler (U : UnicodeData) (proverbs : List Proverb) (q : Query) : Response :=
  let pageNum := match q.page with
    | none => JSNumber.fin 0
    | some s => parseInt10 s
  let limitNum := match q.limit with
    | none => JSNumber.fin 50
    | some s => parseInt10 s
  respond U proverbs q.search q.theme pageNum limitNum

/-! ## Unicode Character Database, covered blocks

The tables below hold the values of the Unicode Character Database for the
blocks Basic Latin to Latin Extended-B (U+0000..U+024F), IPA Extensions
(U+0250..U+02AF), Combining Diacritical Marks (U+0300..U+036F), Hebrew
(U+0590..U+05FF), Latin Extended Additional (U+1E00..U+1EFF) and General
Punctuation (U+2000..U+206F).  A code point of these blocks that is not listed
has no lower-case mapping, no canonical decomposition, or combining class 0.
`ucd` is meant for strings made of code points of these blocks. -/

/-- Lower-case mappings (`UnicodeData.txt`, `SpecialCasing.txt`) of the covered blocks. -/
def lowerTable : List (Nat × List Nat) := [
  (0x0041, [0x0061]), (0x0042, [0x0062]), (0x0043, [0x0063]), (0x0044, [0x0064]),
  (0x0045, [0x0065]), (0x0046, [0x0066]), (0x0047, [0x0067]), (0x0048, [0x0068]),
  (0x0049, [0x0069]), (0x004A, [0x006A]), (0x004B, [0x006B]), (0x004C, [0x006C]),
  (0x004D, [0x006D]), (0x004E, [0x006E]), (0x004F, [0x006F]), (0x0050, [0x0070]),
  (0x0051, [0x0071]), (0x0052, [0x0072]), (0x0053, [0x0073]), (0x0054, [0x0074]),
  (0x0055, [0x0075]), (0x0056, [0x0076]), (0x0057, [0x0077]), (0x0058, [0x0078]),
  (0x0059, [0x0079]), (0x005A, [0x007A]), (0x00C0, [0x00E0]), (0x00C1, [0x00E1]),
  (0x00C2, [0x00E2]), (0x00C3, [0x00E3]), (0x00C4, [0x00E4]), (0x00C5, [0x00E5]),
  (0x00C6, [0x00E6]), (0x00C7, [0x00E7]), (0x00C8, [0x00E8]), (0x00C9, [0x00E9]),
  (0x00CA, [0x00EA]), (0x00CB, [0x00EB]), (0x00CC, [0x00EC]), (0x00CD, [0x00ED]),
  (0x00CE, [0x00EE]), (0x00CF, [0x00EF]), (0x00D0, [0x00F0]), (0x00D1, [0x00F1]),
  (0x00D2, [0x00F2]), (0x00D3, [0x00F3]), (0x00D4, [0x00F4]), (0x00D5, [0x00F5]),
  (0x00D6, [0x00F6]), (0x00D8, [0x00F8]), (0x00D9, [0x00F9]), (0x00DA, [0x00FA]),
  (0x00DB, [0x00FB]), (0x00DC, [0x00FC]), (0x00DD, [0x00FD]), (0x00DE, [0x00FE]),
  (0x0100, [0x0101]), (0x0102, [0x0103]), (0x0104, [0x0105]), (0x0106, [0x0107]),
  (0x0108, [0x0109]), (0x010A, [0x010B]), (0x010C, [0x010D]), (0x010E, [0x010F]),
  (0x0110, [0x0111]), (0x0112, [0x0113]), (0x0114, [0x0115]), (0x0116, [0x0117]),
  (0x0118, [0x0119]), (0x011A, [0x011B]), (0x011C, [0x011D]), (0x011E, [0x011F]),
  (0x0120, [0x0121]), (0x0122, [0x0123]), (0x0124, [0x0125]), (0x0126, [0x0127]),
  (0x0128, [0x0129]), (0x012A, [0x012B]), (0x012C, [0x012D]), (0x012E, [0x012F]),
  (0x0130, [0x0069, 0x0307]), (0x0132, [0x0133]), (0x0134, [0x0135]), (0x0136, [0x0137]),
  (0x0139, [0x013A]), (0x013B, [0x013C]), (0x013D, [0x013E]), (0x013F, [0x0140]),
  (0x0141, [0x0142]), (0x0143, [0x0144]), (0x0145, [0x0146]), (0x0147, [0x0148]),
  (0x014A, [0x014B]), (0x014C, [0x014D]), (0x014E, [0x014F]), (0x0150, [0x0151]),
  (0x0152, [0x0153]), (0x0154, [0x0155]), (0x0156, [0x0157]), (0x0158, [0x0159]),
  (0x015A, [0x015B]), (0x015C, [0x015D]), (0x015E, [0x015F]), (0x0160, [0x0161]),
  (0x0162, [0x0163]), (0x0164, [0x0165]), (0x0166, [0x0167]), (0x0168, [0x0169]),
  (0x016A, [0x016B]), (0x016C, [0x016D]), (0x016E, [0x016F]), (0x0170, [0x0171]),
  (0x0172, [0x0173]), (0x0174, [0x0175]), (0x0176, [0x0177]), (0x0178, [0x00FF]),
  (0x0179, [0x017A]), (0x017B, [0x017C]), (0x017D, [0x017E]), (0x0181, [0x0253]),
  (0x0182, [0x0183]), (0x0184, [0x0185]), (0x0186, [0x0254]), (0x0187, [0x0188]),
  (0x0189, [0x0256]), (0x018A, [0x0257]), (0x018B, [0x018C]), (0x018E, [0x01DD]),
  (0x018F, [0x0259]), (0x0190, [0x025B]), (0x0191, [0x0192]), (0x0193, [0x0260]),
  (0x0194, [0x0263]), (0x0196, [0x0269]), (0x0197, [0x0268]), (0x0198, [0x0199]),
  (0x019C, [0x026F]), (0x019D, [0x0272]), (0x019F, [0x0275]), (0x01A0, [0x01A1]),
  (0x01A2, [0x01A3]), (0x01A4, [0x01A5]), (0x01A6, [0x0280]), (0x01A7, [0x01A8]),
  (0x01A9, [0x0283]), (0x01AC, [0x01AD]), (0x01AE, [0x0288]), (0x01AF, [0x01B0]),
  (0x01B1, [0x028A]), (0x01B2, [0x028B]), (0x01B3, [0x01B4]), (0x01B5, [0x01B6]),
  (0x01B7, [0x0292]), (0x01B8, [0x01B9]), (0x01BC, [0x01BD]), (0x01C4, [0x01C6]),
  (0x01C5, [0x01C6]), (0x01C7, [0x01C9]), (0x01C8, [0x01C9]), (0x01CA, [0x01CC]),
  (0x01CB, [0x01CC]), (0x01CD, [0x01CE]), (0x01CF, [0x01D0]), (0x01D1, [0x01D2]),
  (0x01D3, [0x01D4]), (0x01D5, [0x01D6]), (0x01D7, [0x01D8]), (0x01D9, [0x01DA]),
  (0x01DB, [0x01DC]), (0x01DE, [0x01DF]), (0x01E0, [0x01E1]), (0x01E2, [0x01E3]),
  (0x01E4, [0x01E5]), (0x01E6, [0x01E7]), (0x01E8, [0x01E9]), (0x01EA, [0x01EB]),
  (0x01EC, [0x01ED]), (0x01EE, [0x01EF]), (0x01F1, [0x01F3]), (0x01F2, [0x01F3]),
  (0x01F4, [0x01F5]), (0x01F6, [0x0195]), (0x01F7, [0x01BF]), (0x01F8, [0x01F9]),
  (0x01FA, [0x01FB]), (0x01FC, [0x01FD]), (0x01FE, [0x01FF]), (0x0200, [0x0201]),
  (0x0202, [0x0203]), (0x0204, [0x0205]), (0x0206, [0x0207]), (0x0208, [0x0209]),
  (0x020A, [0x020B]), (0x020C, [0x020D]), (0x020E, [0x020F]), (0x0210, [0x0211]),
  (0x0212, [0x0213]), (0x0214, [0x0215]), (0x0216, [0x0217]), (0x0218, [0x0219]),
  (0x021A, [0x021B]), (0x021C, [0x021D]), (0x021E, [0x021F]), (0x0220, [0x019E]),
  (0x0222, [0x0223]), (0x0224, [0x0225]), (0x0226, [0x0227]), (0x0228, [0x0229]),
  (0x022A, [0x022B]), (0x022C, [0x022D]), (0x022E, [0x022F]), (0x0230, [0x0231]),
  (0x0232, [0x0233]), (0x023A, [0x2C65]), (0x023B, [0x023C]), (0x023D, [0x019A]),
  (0x023E, [0x2C66]), (0x0241, [0x0242]), (0x0243, [0x0180]), (0x0244, [0x0289]),
  (0x0245, [0x028C]), (0x0246, [0x0247]), (0x0248, [0x0249]), (0x024A, [0x024B]),
  (0x024C, [0x024D]), (0x024E, [0x024F]), (0x1E00, [0x1E01]), (0x1E02, [0x1E03]),
  (0x1E04, [0x1E05]), (0x1E06, [0x1E07]), (0x1E08, [0x1E09]), (0x1E0A, [0x1E0B]),
  (0x1E0C, [0x1E0D]), (0x1E0E, [0x1E0F]), (0x1E10, [0x1E11]), (0x1E12, [0x1E13]),
  (0x1E14, [0x1E15]), (0x1E16, [0x1E17]), (0x1E18, [0x1E19]), (0x1E1A, [0x1E1B]),
  (0x1E1C, [0x1E1D]), (0x1E1E, [0x1E1F]), (0x1E20, [0x1E21]), (0x1E22, [0x1E23]),
  (0x1E24, [0x1E25]), (0x1E26, [0x1E27]), (0x1E28, [0x1E29]), (0x1E2A, [0x1E2B]),
  (0x1E2C, [0x1E2D]), (0x1E2E, [0x1E2F]), (0x1E30, [0x1E31]), (0x1E32, [0x1E33]),
  (0x1E34, [0x1E35]), (0x1E36, [0x1E37]), (0x1E38, [0x1E39]), (0x1E3A, [0x1E3B]),
  (0x1E3C, [0x1E3D]), (0x1E3E, [0x1E3F]), (0x1E40, [0x1E41]), (0x1E42, [0x1E43]),
  (0x1E44, [0x1E45]), (0x1E46, [0x1E47]), (0x1E48, [0x1E49]), (0x1E4A, [0x1E4B]),
  (0x1E4C, [0x1E4D]), (0x1E4E, [0x1E4F]), (0x1E50, [0x1E51]), (0x1E52, [0x1E53]),
  (0x1E54, [0x1E55]), (0x1E56, [0x1E57]), (0x1E58, [0x1E59]), (0x1E5A, [0x1E5B]),
  (0x1E5C, [0x1E5D]), (0x1E5E, [0x1E5F]), (0x1E60, [0x1E61]), (0x1E62, [0x1E63]),
  (0x1E64, [0x1E65]), (0x1E66, [0x1E67]), (0x1E68, [0x1E69]), (0x1E6A, [0x1E6B]),
  (0x1E6C, [0x1E6D]), (0x1E6E, [0x1E6F]), (0x1E70, [0x1E71]), (0x1E72, [0x1E73]),
  (0x1E74, [0x1E75]), (0x1E76, [0x1E77]), (0x1E78, [0x1E79]), (0x1E7A, [0x1E7B]),
  (0x1E7C, [0x1E7D]), (0x1E7E, [0x1E7F]), (0x1E80, [0x1E81]), (0x1E82, [0x1E83]),
  (0x1E84, [0x1E85]), (0x1E86, [0x1E87]), (0x1E88, [0x1E89]), (0x1E8A, [0x1E8B]),
  (0x1E8C, [0x1E8D]), (0x1E8E, [0x1E8F]), (0x1E90, [0x1E91]), (0x1E92, [0x1E93]),
  (0x1E94, [0x1E95]), (0x1E9E, [0x00DF]), (0x1EA0, [0x1EA1]), (0x1EA2, [0x1EA3]),
  (0x1EA4, [0x1EA5]), (0x1EA6, [0x1EA7]), (0x1EA8, [0x1EA9]), (0x1EAA, [0x1EAB]),
  (0x1EAC, [0x1EAD]), (0x1EAE, [0x1EAF]), (0x1EB0, [0x1EB1]), (0x1EB2, [0x1EB3]),
  (0x1EB4, [0x1EB5]), (0x1EB6, [0x1EB7]), (0x1EB8, [0x1EB9]), (0x1EBA, [0x1EBB]),
  (0x1EBC, [0x1EBD]), (0x1EBE, [0x1EBF]), (0x1EC0, [0x1EC1]), (0x1EC2, [0x1EC3]),
  (0x1EC4, [0x1EC5]), (0x1EC6, [0x1EC7]), (0x1EC8, [0x1EC9]), (0x1ECA, [0x1ECB]),
  (0x1ECC, [0x1ECD]), (0x1ECE, [0x1ECF]), (0x1ED0, [0x1ED1]), (0x1ED2, [0x1ED3]),
  (0x1ED4, [0x1ED5]), (0x1ED6, [0x1ED7]), (0x1ED8, [0x1ED9]), (0x1EDA, [0x1EDB]),
  (0x1EDC, [0x1EDD]), (0x1EDE, [0x1EDF]), (0x1EE0, [0x1EE1]), (0x1EE2, [0x1EE3]),
  (0x1EE4, [0x1EE5]), (0x1EE6, [0x1EE7]), (0x1EE8, [0x1EE9]), (0x1EEA, [0x1EEB]),
  (0x1EEC, [0x1EED]), (0x1EEE, [0x1EEF]), (0x1EF0, [0x1EF1]), (0x1EF2, [0x1EF3]),
  (0x1EF4, [0x1EF5]), (0x1EF6, [0x1EF7]), (0x1EF8, [0x1EF9]), (0x1EFA, [0x1EFB]),
  (0x1EFC, [0x1EFD]), (0x1EFE, [0x1EFF])
]

/-- Full canonical decompositions of the covered blocks. -/
def decompositionTable : List (Nat × List Nat) := [
  (0x00C0, [0x0041, 0x0300]), (0x00C1, [0x0041, 0x0301]), (0x00C2, [0x0041, 0x0302]), (0x00C3, [0x0041, 0x0303]),
  (0x00C4, [0x0041, 0x0308]), (0x00C5, [0x0041, 0x030A]), (0x00C7, [0x0043, 0x0327]), (0x00C8, [0x0045, 0x0300]),
  (0x00C9, [0x0045, 0x0301]), (0x00CA, [0x0045, 0x0302]), (0x00CB, [0x0045, 0x0308]), (0x00CC, [0x0049, 0x0300]),
  (0x00CD, [0x0049, 0x0301]), (0x00CE, [0x0049, 0x0302]), (0x00CF, [0x0049, 0x0308]), (0x00D1, [0x004E, 0x0303]),
  (0x00D2, [0x004F, 0x0300]), (0x00D3, [0x004F, 0x0301]), (0x00D4, [0x004F, 0x0302]), (0x00D5, [0x004F, 0x0303]),
  (0x00D6, [0x004F, 0x0308]), (0x00D9, [0x0055, 0x0300]), (0x00DA, [0x0055, 0x0301]), (0x00DB, [0x0055, 0x0302]),
  (0x00DC, [0x0055, 0x0308]), (0x00DD, [0x0059, 0x0301]), (0x00E0, [0x0061, 0x0300]), (0x00E1, [0x0061, 0x0301]),
  (0x00E2, [0x0061, 0x0302]), (0x00E3, [0x0061, 0x0303]), (0x00E4, [0x0061, 0x0308]), (0x00E5, [0x0061, 0x030A]),
  (0x00E7, [0x0063, 0x0327]), (0x00E8, [0x0065, 0x0300]), (0x00E9, [0x0065, 0x0301]), (0x00EA, [0x0065, 0x0302]),
  (0x00EB, [0x0065, 0x0308]), (0x00EC, [0x0069, 0x0300]), (0x00ED, [0x0069, 0x0301]), (0x00EE, [0x0069, 0x0302]),
  (0x00EF, [0x0069, 0x0308]), (0x00F1, [0x006E, 0x0303]), (0x00F2, [0x006F, 0x0300]), (0x00F3, [0x006F, 0x0301]),
  (0x00F4, [0x006F, 0x0302]), (0x00F5, [0x006F, 0x0303]), (0x00F6, [0x006F, 0x0308]), (0x00F9, [0x0075, 0x0300]),
  (0x00FA, [0x0075, 0x0301]), (0x00FB, [0x0075, 0x0302]), (0x00FC, [0x0075, 0x0308]), (0x00FD, [0x0079, 0x0301]),
  (0x00FF, [0x0079, 0x0308]), (0x0100, [0x0041, 0x0304]), (0x0101, [0x0061, 0x0304]), (0x0102, [0x0041, 0x0306]),
  (0x0103, [0x0061, 0x0306]), (0x0104, [0x0041, 0x0328]), (0x0105, [0x0061, 0x0328]), (0x0106, [0x0043, 0x0301]),
  (0x0107, [0x0063, 0x0301]), (0x0108, [0x0043, 0x0302]), (0x0109, [0x0063, 0x0302]), (0x010A, [0x0043, 0x0307]),
  (0x010B, [0x0063, 0x0307]), (0x010C, [0x0043, 0x030C]), (0x010D, [0x0063, 0x030C]), (0x010E, [0x0044, 0x030C]),
  (0x010F, [0x0064, 0x030C]), (0x0112, [0x0045, 0x0304]), (0x0113, [0x0065, 0x0304]), (0x0114, [0x0045, 0x0306]),
  (0x0115, [0x0065, 0x0306]), (0x0116, [0x0045, 0x0307]), (0x0117, [0x0065, 0x0307]), (0x0118, [0x0045, 0x0328]),
  (0x0119, [0x0065, 0x0328]), (0x011A, [0x0045, 0x030C]), (0x011B, [0x0065, 0x030C]), (0x011C, [0x0047, 0x0302]),
  (0x011D, [0x0067, 0x0302]), (0x011E, [0x0047, 0x0306]), (0x011F, [0x0067, 0x0306]), (0x0120, [0x0047, 0x0307]),
  (0x0121, [0x0067, 0x0307]), (0x0122, [0x0047, 0x0327]), (0x0123, [0x0067, 0x0327]), (0x0124, [0x0048, 0x0302]),
  (0x0125, [0x0068, 0x0302]), (0x0128, [0x0049, 0x0303]), (0x0129, [0x0069, 0x0303]), (0x012A, [0x0049, 0x0304]),
  (0x012B, [0x0069, 0x0304]), (0x012C, [0x0049, 0x0306]), (0x012D, [0x0069, 0x0306]), (0x012E, [0x0049, 0x0328]),
  (0x012F, [0x0069, 0x0328]), (0x0130, [0x0049, 0x0307]), (0x0134, [0x004A, 0x0302]), (0x0135, [0x006A, 0x0302]),
  (0x0136, [0x004B, 0x0327]), (0x0137, [0x006B, 0x0327]), (0x0139, [0x004C, 0x0301]), (0x013A, [0x006C, 0x0301]),
  (0x013B, [0x004C, 0x0327]), (0x013C, [0x006C, 0x0327]), (0x013D, [0x004C, 0x030C]), (0x013E, [0x006C, 0x030C]),
  (0x0143, [0x004E, 0x0301]), (0x0144, [0x006E, 0x0301]), (0x0145, [0x004E, 0x0327]), (0x0146, [0x006E, 0x0327]),
  (0x0147, [0x004E, 0x030C]), (0x0148, [0x006E, 0x030C]), (0x014C, [0x004F, 0x0304]), (0x014D, [0x006F, 0x0304]),
  (0x014E, [0x004F, 0x0306]), (0x014F, [0x006F, 0x0306]), (0x0150, [0x004F, 0x030B]), (0x0151, [0x006F, 0x030B]),
  (0x0154, [0x0052, 0x0301]), (0x0155, [0x0072, 0x0301]), (0x0156, [0x0052, 0x0327]), (0x0157, [0x0072, 0x0327]),
  (0x0158, [0x0052, 0x030C]), (0x0159, [0x0072, 0x030C]), (0x015A, [0x0053, 0x0301]), (0x015B, [0x0073, 0x0301]),
  (0x015C, [0x0053, 0x0302]), (0x015D, [0x0073, 0x0302]), (0x015E, [0x0053, 0x0327]), (0x015F, [0x0073, 0x0327]),
  (0x0160, [0x0053, 0x030C]), (0x0161, [0x0073, 0x030C]), (0x0162, [0x0054, 0x0327]), (0x0163, [0x0074, 0x0327]),
  (0x0164, [0x0054, 0x030C]), (0x0165, [0x0074, 0x030C]), (0x0168, [0x0055, 0x0303]), (0x0169, [0x0075, 0x0303]),
  (0x016A, [0x0055, 0x0304]), (0x016B, [0x0075, 0x0304]), (0x016C, [0x0055, 0x0306]), (0x016D, [0x0075, 0x0306]),
  (0x016E, [0x0055, 0x030A]), (0x016F, [0x0075, 0x030A]), (0x0170, [0x0055, 0x030B]), (0x0171, [0x0075, 0x030B]),
  (0x0172, [0x0055, 0x0328]), (0x0173, [0x0075, 0x0328]), (0x0174, [0x0057, 0x0302]), (0x0175, [0x0077, 0x0302]),
  (0x0176, [0x0059, 0x0302]), (0x0177, [0x0079, 0x0302]), (0x0178, [0x0059, 0x0308]), (0x0179, [0x005A, 0x0301]),
  (0x017A, [0x007A, 0x0301]), (0x017B, [0x005A, 0x0307]), (0x017C, [0x007A, 0x0307]), (0x017D, [0x005A, 0x030C]),
  (0x017E, [0x007A, 0x030C]), (0x01A0, [0x004F, 0x031B]), (0x01A1, [0x006F, 0x031B]), (0x01AF, [0x0055, 0x031B]),
  (0x01B0, [0x0075, 0x031B]), (0x01CD, [0x0041, 0x030C]), (0x01CE, [0x0061, 0x030C]), (0x01CF, [0x0049, 0x030C]),
  (0x01D0, [0x0069, 0x030C]), (0x01D1, [0x004F, 0x030C]), (0x01D2, [0x006F, 0x030C]), (0x01D3, [0x0055, 0x030C]),
  (0x01D4, [0x0075, 0x030C]), (0x01D5, [0x0055, 0x0308, 0x0304]), (0x01D6, [0x0075, 0x0308, 0x0304]), (0x01D7, [0x0055, 0x0308, 0x0301]),
  (0x01D8, [0x0075, 0x0308, 0x0301]), (0x01D9, [0x0055, 0x0308, 0x030C]), (0x01DA, [0x0075, 0x0308, 0x030C]), (0x01DB, [0x0055, 0x0308, 0x0300]),
  (0x01DC, [0x0075, 0x0308, 0x0300]), (0x01DE, [0x0041, 0x0308, 0x0304]), (0x01DF, [0x0061, 0x0308, 0x0304]), (0x01E0, [0x0041, 0x0307, 0x0304]),
  (0x01E1, [0x0061, 0x0307, 0x0304]), (0x01E2, [0x00C6, 0x0304]), (0x01E3, [0x00E6, 0x0304]), (0x01E6, [0x0047, 0x030C]),
  (0x01E7, [0x0067, 0x030C]), (0x01E8, [0x004B, 0x030C]), (0x01E9, [0x006B, 0x030C]), (0x01EA, [0x004F, 0x0328]),
  (0x01EB, [0x006F, 0x0328]), (0x01EC, [0x004F, 0x0328, 0x0304]), (0x01ED, [0x006F, 0x0328, 0x0304]), (0x01EE, [0x01B7, 0x030C]),
  (0x01EF, [0x0292, 0x030C]), (0x01F0, [0x006A, 0x030C]), (0x01F4, [0x0047, 0x0301]), (0x01F5, [0x0067, 0x0301]),
  (0x01F8, [0x004E, 0x0300]), (0x01F9, [0x006E, 0x0300]), (0x01FA, [0x0041, 0x030A, 0x0301]), (0x01FB, [0x0061, 0x030A, 0x0301]),
  (0x01FC, [0x00C6, 0x0301]), (0x01FD, [0x00E6, 0x0301]), (0x01FE, [0x00D8, 0x0301]), (0x01FF, [0x00F8, 0x0301]),
  (0x0200, [0x0041, 0x030F]), (0x0201, [0x0061, 0x030F]), (0x0202, [0x0041, 0x0311]), (0x0203, [0x0061, 0x0311]),
  (0x0204, [0x0045, 0x030F]), (0x0205, [0x0065, 0x030F]), (0x0206, [0x0045, 0x0311]), (0x0207, [0x0065, 0x0311]),
  (0x0208, [0x0049, 0x030F]), (0x0209, [0x0069, 0x030F]), (0x020A, [0x0049, 0x0311]), (0x020B, [0x0069, 0x0311]),
  (0x020C, [0x004F, 0x030F]), (0x020D, [0x006F, 0x030F]), (0x020E, [0x004F, 0x0311]), (0x020F, [0x006F, 0x0311]),
  (0x0210, [0x0052, 0x030F]), (0x0211, [0x0072, 0x030F]), (0x0212, [0x0052, 0x0311]), (0x0213, [0x0072, 0x0311]),
  (0x0214, [0x0055, 0x030F]), (0x0215, [0x0075, 0x030F]), (0x0216, [0x0055, 0x0311]), (0x0217, [0x0075, 0x0311]),
  (0x0218, [0x0053, 0x0326]), (0x0219, [0x0073, 0x0326]), (0x021A, [0x0054, 0x0326]), (0x021B, [0x0074, 0x0326]),
  (0x021E, [0x0048, 0x030C]), (0x021F, [0x0068, 0x030C]), (0x0226, [0x0041, 0x0307]), (0x0227, [0x0061, 0x0307]),
  (0x0228, [0x0045, 0x0327]), (0x0229, [0x0065, 0x0327]), (0x022A, [0x004F, 0x0308, 0x0304]), (0x022B, [0x006F, 0x0308, 0x0304]),
  (0x022C, [0x004F, 0x0303, 0x0304]), (0x022D, [0x006F, 0x0303, 0x0304]), (0x022E, [0x004F, 0x0307]), (0x022F, [0x006F, 0x0307]),
  (0x0230, [0x004F, 0x0307, 0x0304]), (0x0231, [0x006F, 0x0307, 0x0304]), (0x0232, [0x0059, 0x0304]), (0x0233, [0x0079, 0x0304]),
  (0x0340, [0x0300]), (0x0341, [0x0301]), (0x0343, [0x0313]), (0x0344, [0x0308, 0x0301]),
  (0x1E00, [0x0041, 0x0325]), (0x1E01, [0x0061, 0x0325]), (0x1E02, [0x0042, 0x0307]), (0x1E03, [0x0062, 0x0307]),
  (0x1E04, [0x0042, 0x0323]), (0x1E05, [0x0062, 0x0323]), (0x1E06, [0x0042, 0x0331]), (0x1E07, [0x0062, 0x0331]),
  (0x1E08, [0x0043, 0x0327, 0x0301]), (0x1E09, [0x0063, 0x0327, 0x0301]), (0x1E0A, [0x0044, 0x0307]), (0x1E0B, [0x0064, 0x0307]),
  (0x1E0C, [0x0044, 0x0323]), (0x1E0D, [0x0064, 0x0323]), (0x1E0E, [0x0044, 0x0331]), (0x1E0F, [0x0064, 0x0331]),
  (0x1E10, [0x0044, 0x0327]), (0x1E11, [0x0064, 0x0327]), (0x1E12, [0x0044, 0x032D]), (0x1E13, [0x0064, 0x032D]),
  (0x1E14, [0x0045, 0x0304, 0x0300]), (0x1E15, [0x0065, 0x0304, 0x0300]), (0x1E16, [0x0045, 0x0304, 0x0301]), (0x1E17, [0x0065, 0x0304, 0x0301]),
  (0x1E18, [0x0045, 0x032D]), (0x1E19, [0x0065, 0x032D]), (0x1E1A, [0x0045, 0x0330]), (0x1E1B, [0x0065, 0x0330]),
  (0x1E1C, [0x0045, 0x0327, 0x0306]), (0x1E1D, [0x0065, 0x0327, 0x0306]), (0x1E1E, [0x0046, 0x0307]), (0x1E1F, [0x0066, 0x0307]),
  (0x1E20, [0x0047, 0x0304]), (0x1E21, [0x0067, 0x0304]), (0x1E22, [0x0048, 0x0307]), (0x1E23, [0x0068, 0x0307]),
  (0x1E24, [0x0048, 0x0323]), (0x1E25, [0x0068, 0x0323]), (0x1E26, [0x0048, 0x0308]), (0x1E27, [0x0068, 0x0308]),
  (0x1E28, [0x0048, 0x0327]), (0x1E29, [0x0068, 0x0327]), (0x1E2A, [0x0048, 0x032E]), (0x1E2B, [0x0068, 0x032E]),
  (0x1E2C, [0x0049, 0x0330]), (0x1E2D, [0x0069, 0x0330]), (0x1E2E, [0x0049, 0x0308, 0x0301]), (0x1E2F, [0x0069, 0x0308, 0x0301]),
  (0x1E30, [0x004B, 0x0301]), (0x1E31, [0x006B, 0x0301]), (0x1E32, [0x004B, 0x0323]), (0x1E33, [0x006B, 0x0323]),
  (0x1E34, [0x004B, 0x0331]), (0x1E35, [0x006B, 0x0331]), (0x1E36, [0x004C, 0x0323]), (0x1E37, [0x006C, 0x0323]),
  (0x1E38, [0x004C, 0x0323, 0x0304]), (0x1E39, [0x006C, 0x0323, 0x0304]), (0x1E3A, [0x004C, 0x0331]), (0x1E3B, [0x006C, 0x0331]),
  (0x1E3C, [0x004C, 0x032D]), (0x1E3D, [0x006C, 0x032D]), (0x1E3E, [0x004D, 0x0301]), (0x1E3F, [0x006D, 0x0301]),
  (0x1E40, [0x004D, 0x0307]), (0x1E41, [0x006D, 0x0307]), (0x1E42, [0x004D, 0x0323]), (0x1E43, [0x006D, 0x0323]),
  (0x1E44, [0x004E, 0x0307]), (0x1E45, [0x006E, 0x0307]), (0x1E46, [0x004E, 0x0323]), (0x1E47, [0x006E, 0x0323]),
  (0x1E48, [0x004E, 0x0331]), (0x1E49, [0x006E, 0x0331]), (0x1E4A, [0x004E, 0x032D]), (0x1E4B, [0x006E, 0x032D]),
  (0x1E4C, [0x004F, 0x0303, 0x0301]), (0x1E4D, [0x006F, 0x0303, 0x0301]), (0x1E4E, [0x004F, 0x0303, 0x0308]), (0x1E4F, [0x006F, 0x0303, 0x0308]),
  (0x1E50, [0x004F, 0x0304, 0x0300]), (0x1E51, [0x006F, 0x0304, 0x0300]), (0x1E52, [0x004F, 0x0304, 0x0301]), (0x1E53, [0x006F, 0x0304, 0x0301]),
  (0x1E54, [0x0050, 0x0301]), (0x1E55, [0x0070, 0x0301]), (0x1E56, [0x0050, 0x0307]), (0x1E57, [0x0070, 0x0307]),
  (0x1E58, [0x0052, 0x0307]), (0x1E59, [0x0072, 0x0307]), (0x1E5A, [0x0052, 0x0323]), (0x1E5B, [0x0072, 0x0323]),
  (0x1E5C, [0x0052, 0x0323, 0x0304]), (0x1E5D, [0x0072, 0x0323, 0x0304]), (0x1E5E, [0x0052, 0x0331]), (0x1E5F, [0x0072, 0x0331]),
  (0x1E60, [0x0053, 0x0307]), (0x1E61, [0x0073, 0x0307]), (0x1E62, [0x0053, 0x0323]), (0x1E63, [0x0073, 0x0323]),
  (0x1E64, [0x0053, 0x0301, 0x0307]), (0x1E65, [0x0073, 0x0301, 0x0307]), (0x1E66, [0x0053, 0x030C, 0x0307]), (0x1E67, [0x0073, 0x030C, 0x0307]),
  (0x1E68, [0x0053, 0x0323, 0x0307]), (0x1E69, [0x0073, 0x0323, 0x0307]), (0x1E6A, [0x0054, 0x0307]), (0x1E6B, [0x0074, 0x0307]),
  (0x1E6C, [0x0054, 0x0323]), (0x1E6D, [0x0074, 0x0323]), (0x1E6E, [0x0054, 0x0331]), (0x1E6F, [0x0074, 0x0331]),
  (0x1E70, [0x0054, 0x032D]), (0x1E71, [0x0074, 0x032D]), (0x1E72, [0x0055, 0x0324]), (0x1E73, [0x0075, 0x0324]),
  (0x1E74, [0x0055, 0x0330]), (0x1E75, [0x0075, 0x0330]), (0x1E76, [0x0055, 0x032D]), (0x1E77, [0x0075, 0x032D]),
  (0x1E78, [0x0055, 0x0303, 0x0301]), (0x1E79, [0x0075, 0x0303, 0x0301]), (0x1E7A, [0x0055, 0x0304, 0x0308]), (0x1E7B, [0x0075, 0x0304, 0x0308]),
  (0x1E7C, [0x0056, 0x0303]), (0x1E7D, [0x0076, 0x0303]), (0x1E7E, [0x0056, 0x0323]), (0x1E7F, [0x0076, 0x0323]),
  (0x1E80, [0x0057, 0x0300]), (0x1E81, [0x0077, 0x0300]), (0x1E82, [0x0057, 0x0301]), (0x1E83, [0x0077, 0x0301]),
  (0x1E84, [0x0057, 0x0308]), (0x1E85, [0x0077, 0x0308]), (0x1E86, [0x0057, 0x0307]), (0x1E87, [0x0077, 0x0307]),
  (0x1E88, [0x0057, 0x0323]), (0x1E89, [0x0077, 0x0323]), (0x1E8A, [0x0058, 0x0307]), (0x1E8B, [0x0078, 0x0307]),
  (0x1E8C, [0x0058, 0x0308]), (0x1E8D, [0x0078, 0x0308]), (0x1E8E, [0x0059, 0x0307]), (0x1E8F, [0x0079, 0x0307]),
  (0x1E90, [0x005A, 0x0302]), (0x1E91, [0x007A, 0x0302]), (0x1E92, [0x005A, 0x0323]), (0x1E93, [0x007A, 0x0323]),
  (0x1E94, [0x005A, 0x0331]), (0x1E95, [0x007A, 0x0331]), (0x1E96, [0x0068, 0x0331]), (0x1E97, [0x0074, 0x0308]),
  (0x1E98, [0x0077, 0x030A]), (0x1E99, [0x0079, 0x030A]), (0x1E9B, [0x017F, 0x0307]), (0x1EA0, [0x0041, 0x0323]),
  (0x1EA1, [0x0061, 0x0323]), (0x1EA2, [0x0041, 0x0309]), (0x1EA3, [0x0061, 0x0309]), (0x1EA4, [0x0041, 0x0302, 0x0301]),
  (0x1EA5, [0x0061, 0x0302, 0x0301]), (0x1EA6, [0x0041, 0x0302, 0x0300]), (0x1EA7, [0x0061, 0x0302, 0x0300]), (0x1EA8, [0x0041, 0x0302, 0x0309]),
  (0x1EA9, [0x0061, 0x0302, 0x0309]), (0x1EAA, [0x0041, 0x0302, 0x0303]), (0x1EAB, [0x0061, 0x0302, 0x0303]), (0x1EAC, [0x0041, 0x0323, 0x0302]),
  (0x1EAD, [0x0061, 0x0323, 0x0302]), (0x1EAE, [0x0041, 0x0306, 0x0301]), (0x1EAF, [0x0061, 0x0306, 0x0301]), (0x1EB0, [0x0041, 0x0306, 0x0300]),
  (0x1EB1, [0x0061, 0x0306, 0x0300]), (0x1EB2, [0x0041, 0x0306, 0x0309]), (0x1EB3, [0x0061, 0x0306, 0x0309]), (0x1EB4, [0x0041, 0x0306, 0x0303]),
  (0x1EB5, [0x0061, 0x0306, 0x0303]), (0x1EB6, [0x0041, 0x0323, 0x0306]), (0x1EB7, [0x0061, 0x0323, 0x0306]), (0x1EB8, [0x0045, 0x0323]),
  (0x1EB9, [0x0065, 0x0323]), (0x1EBA, [0x0045, 0x0309]), (0x1EBB, [0x0065, 0x0309]), (0x1EBC, [0x0045, 0x0303]),
  (0x1EBD, [0x0065, 0x0303]), (0x1EBE, [0x0045, 0x0302, 0x0301]), (0x1EBF, [0x0065, 0x0302, 0x0301]), (0x1EC0, [0x0045, 0x0302, 0x0300]),
  (0x1EC1, [0x0065, 0x0302, 0x0300]), (0x1EC2, [0x0045, 0x0302, 0x0309]), (0x1EC3, [0x0065, 0x0302, 0x0309]), (0x1EC4, [0x0045, 0x0302, 0x0303]),
  (0x1EC5, [0x0065, 0x0302, 0x0303]), (0x1EC6, [0x0045, 0x0323, 0x0302]), (0x1EC7, [0x0065, 0x0323, 0x0302]), (0x1EC8, [0x0049, 0x0309]),
  (0x1EC9, [0x0069, 0x0309]), (0x1ECA, [0x0049, 0x0323]), (0x1ECB, [0x0069, 0x0323]), (0x1ECC, [0x004F, 0x0323]),
  (0x1ECD, [0x006F, 0x0323]), (0x1ECE, [0x004F, 0x0309]), (0x1ECF, [0x006F, 0x0309]), (0x1ED0, [0x004F, 0x0302, 0x0301]),
  (0x1ED1, [0x006F, 0x0302, 0x0301]), (0x1ED2, [0x004F, 0x0302, 0x0300]), (0x1ED3, [0x006F, 0x0302, 0x0300]), (0x1ED4, [0x004F, 0x0302, 0x0309]),
  (0x1ED5, [0x006F, 0x0302, 0x0309]), (0x1ED6, [0x004F, 0x0302, 0x0303]), (0x1ED7, [0x006F, 0x0302, 0x0303]), (0x1ED8, [0x004F, 0x0323, 0x0302]),
  (0x1ED9, [0x006F, 0x0323, 0x0302]), (0x1EDA, [0x004F, 0x031B, 0x0301]), (0x1EDB, [0x006F, 0x031B, 0x0301]), (0x1EDC, [0x004F, 0x031B, 0x0300]),
  (0x1EDD, [0x006F, 0x031B, 0x0300]), (0x1EDE, [0x004F, 0x031B, 0x0309]), (0x1EDF, [0x006F, 0x031B, 0x0309]), (0x1EE0, [0x004F, 0x031B, 0x0303]),
  (0x1EE1, [0x006F, 0x031B, 0x0303]), (0x1EE2, [0x004F, 0x031B, 0x0323]), (0x1EE3, [0x006F, 0x031B, 0x0323]), (0x1EE4, [0x0055, 0x0323]),
  (0x1EE5, [0x0075, 0x0323]), (0x1EE6, [0x0055, 0x0309]), (0x1EE7, [0x0075, 0x0309]), (0x1EE8, [0x0055, 0x031B, 0x0301]),
  (0x1EE9, [0x0075, 0x031B, 0x0301]), (0x1EEA, [0x0055, 0x031B, 0x0300]), (0x1EEB, [0x0075, 0x031B, 0x0300]), (0x1EEC, [0x0055, 0x031B, 0x0309]),
  (0x1EED, [0x0075, 0x031B, 0x0309]), (0x1EEE, [0x0055, 0x031B, 0x0303]), (0x1EEF, [0x0075, 0x031B, 0x0303]), (0x1EF0, [0x0055, 0x031B, 0x0323]),
  (0x1EF1, [0x0075, 0x031B, 0x0323]), (0x1EF2, [0x0059, 0x0300]), (0x1EF3, [0x0079, 0x0300]), (0x1EF4, [0x0059, 0x0323]),
  (0x1EF5, [0x0079, 0x0323]), (0x1EF6, [0x0059, 0x0309]), (0x1EF7, [0x0079, 0x0309]), (0x1EF8, [0x0059, 0x0303]),
  (0x1EF9, [0x0079, 0x0303]), (0x2000, [0x2002]), (0x2001, [0x2003])
]

/-- Non-zero canonical combining classes of the covered blocks. -/
def combiningClassTable : List (Nat × Nat) := [
  (0x0300, 230), (0x0301, 230), (0x0302, 230), (0x0303, 230), (0x0304, 230), (0x0305, 230), (0x0306, 230), (0x0307, 230),
  (0x0308, 230), (0x0309, 230), (0x030A, 230), (0x030B, 230), (0x030C, 230), (0x030D, 230), (0x030E, 230), (0x030F, 230),
  (0x0310, 230), (0x0311, 230), (0x0312, 230), (0x0313, 230), (0x0314, 230), (0x0315, 232), (0x0316, 220), (0x0317, 220),
  (0x0318, 220), (0x0319, 220), (0x031A, 232), (0x031B, 216), (0x031C, 220), (0x031D, 220), (0x031E, 220), (0x031F, 220),
  (0x0320, 220), (0x0321, 202), (0x0322, 202), (0x0323, 220), (0x0324, 220), (0x0325, 220), (0x0326, 220), (0x0327, 202),
  (0x0328, 202), (0x0329, 220), (0x032A, 220), (0x032B, 220), (0x032C, 220), (0x032D, 220), (0x032E, 220), (0x032F, 220),
  (0x0330, 220), (0x0331, 220), (0x0332, 220), (0x0333, 220), (0x0334, 1), (0x0335, 1), (0x0336, 1), (0x0337, 1),
  (0x0338, 1), (0x0339, 220), (0x033A, 220), (0x033B, 220), (0x033C, 220), (0x033D, 230), (0x033E, 230), (0x033F, 230),
  (0x0340, 230), (0x0341, 230), (0x0342, 230), (0x0343, 230), (0x0344, 230), (0x0345, 240), (0x0346, 230), (0x0347, 220),
  (0x0348, 220), (0x0349, 220), (0x034A, 230), (0x034B, 230), (0x034C, 230), (0x034D, 220), (0x034E, 220), (0x0350, 230),
  (0x0351, 230), (0x0352, 230), (0x0353, 220), (0x0354, 220), (0x0355, 220), (0x0356, 220), (0x0357, 230), (0x0358, 232),
  (0x0359, 220), (0x035A, 220), (0x035B, 230), (0x035C, 233), (0x035D, 234), (0x035E, 234), (0x035F, 233), (0x0360, 234),
  (0x0361, 234), (0x0362, 233), (0x0363, 230), (0x0364, 230), (0x0365, 230), (0x0366, 230), (0x0367, 230), (0x0368, 230),
  (0x0369, 230), (0x036A, 230), (0x036B, 230), (0x036C, 230), (0x036D, 230), (0x036E, 230), (0x036F, 230), (0x0591, 220),
  (0x0592, 230), (0x0593, 230), (0x0594, 230), (0x0595, 230), (0x0596, 220), (0x0597, 230), (0x0598, 230), (0x0599, 230),
  (0x059A, 222), (0x059B, 220), (0x059C, 230), (0x059D, 230), (0x059E, 230), (0x059F, 230), (0x05A0, 230), (0x05A1, 230),
  (0x05A2, 220), (0x05A3, 220), (0x05A4, 220), (0x05A5, 220), (0x05A6, 220), (0x05A7, 220), (0x05A8, 230), (0x05A9, 230),
  (0x05AA, 220), (0x05AB, 230), (0x05AC, 230), (0x05AD, 222), (0x05AE, 228), (0x05AF, 230), (0x05B0, 10), (0x05B1, 11),
  (0x05B2, 12), (0x05B3, 13), (0x05B4, 14), (0x05B5, 15), (0x05B6, 16), (0x05B7, 17), (0x05B8, 18), (0x05B9, 19),
  (0x05BA, 19), (0x05BB, 20), (0x05BC, 21), (0x05BD, 22), (0x05BF, 23), (0x05C1, 24), (0x05C2, 25), (0x05C4, 230),
  (0x05C5, 220), (0x05C7, 18)
]

/-- The Unicode operations over the covered blocks.  None of the covered code
points has a context-dependent lower-case mapping, so `toLowerCase` maps code
point by code point. -/
def ucd : UnicodeData where
  toLowerCase s := s.flatMap fun c => (lowerTable.lookup c).getD [c]
  decomposition c := (decompositionTable.lookup c).getD [c]
  combiningClass c := (combiningClassTable.lookup c).getD 0

/-! ## Reference definitions used to state the properties -/

/-- The pipeline of `normalizeText` with the table substitution (the first
`replace`, line 19) left out; used only for comparison with `normalizeText`. -/
def normalizeTextWithoutSubstitution (U : UnicodeData) (text : Option JSString) : JSString :=
  match text with
  | none => []
  | some [] => []
  | some s => trim (stripMarks (normalizeNFD U (U.toLowerCase s)))

/-- The elements of `l` whose position `i` satisfies `lo ≤ i < hi`, in order;
a statement of "the records at positions `lo` to `hi`" that does not mention
`slice`. -/
def positionsBetween {α : Type} (lo hi : Int) (l : List α) : List α :=
  (l.enum.filter fun x => decide (lo ≤ (x.1 : Int) ∧ (x.1 : Int) < hi)).map Prod.snd

/-- The raw collection of the end-to-end example of the specification. -/
def exampleData : List RawProverb :=
  [RawProverb.mk (some (str "Ɛeqel ideg telliḍ")) (some (str "Connais ta place"))
      (some (str "Sagesse")) [],
   RawProverb.mk (some (str "Azul fell-ak")) (some (str "Salut à toi"))
      (some (str "Salutations")) []]

/-- Adjacent code points are in canonical order: no non-starter directly
follows a code point of strictly greater combining class. -/
def Ordered (ccc : Nat → Nat) (l : List Nat) : Prop :=
  List.Chain' (fun a b => ¬ (0 < ccc b ∧ ccc b < ccc a)) l

/-- The decomposition data of the table letters: each decomposes into its
table target followed by marks of U+0300..U+036F that are non-starters, and
the target itself does not decompose. -/
def SpecialLettersDecompose (U : UnicodeData) : Prop :=
  ∀ c ∈ specialClass,
    replacement c <+: U.decomposition c ∧
    (∀ m ∈ (U.decomposition c).drop (replacement c).length,
      0x0300 ≤ m ∧ m ≤ 0x036F ∧ 0 < U.combiningClass m) ∧
    (replacement c).flatMap U.decomposition = replacement c


/-- The filter used to compare decompositions: it drops exactly the non-starters
of the stripped range. -/
def keepUnstripped (ccc : Nat → Nat) (a : Nat) : Bool :=
  !((0x0300 ≤ a && a ≤ 0x036F) && decide (0 < ccc a))

/-- Reading the property `key` of an element of `proverbsData`; `none` is an
absent (or `null`) property. -/
def RawProverb.property (p : RawProverb) (key : String) : Option JSValue :=
  if key = "kabyle" then p.kabyle.map JSValue.str
  else if key = "francais" then p.francais.map JSValue.str
  else if key = "theme" then p.theme.map JSValue.str
  else p.rest.lookup key

/-- Reading the property `key` of an element of `proverbs`: the four
properties written after the spread `...p` shadow properties of the same name
of the raw record; every other property is the raw record's. -/
def Proverb.property (r : Proverb) (key : String) : Option JSValue :=
  if key = "id" then some (JSValue.num r.id)
  else if key = "kabyle_norm" then some (JSValue.str r.kabyle_norm)
  else if key = "francais_norm" then some (JSValue.str r.francais_norm)
  else if key = "theme_norm" then some (JSValue.str r.theme_norm)
  else r.raw.property key

/-- The five table letters in lower and upper case, each with the ASCII letter
of the table: Ǧ ǧ to g, Č č to c, Ṣ ṣ to s, Ṭ ṭ to t, Ẓ ẓ to z. -/
def specialLetterTargets : List (Nat × Nat) :=
  [(0x01E6, 0x67), (0x01E7, 0x67), (0x010C, 0x63), (0x010D, 0x63), (0x1E62, 0x73),
   (0x1E63, 0x73), (0x1E6C, 0x74), (0x1E6D, 0x74), (0x1E92, 0x7A), (0x1E93, 0x7A)]

/-- The ASCII letter that corresponds to a table letter of either case. -/
def asciiTarget (c : Nat) : Nat :=
  (specialLetterTargets.lookup c).getD c

/-- The set of the keys of a table, as a bit mask: bit `k` is set when `k` is a
key.  Used to check the tables of `ucd` in one pass. -/
def keyMask {β : Type} (t : List (Nat × β)) : Nat :=
  t.foldr (fun e m => (1 <<< e.1) ||| m) 0

/-- The facts of the Unicode Character Database that the idempotence of
`normalizeText` rests on.  A code point `c` is called lower-case stable when
`toLowerCase` leaves the one-character string `c` unchanged. -/
structure UnicodeFacts (U : UnicodeData) : Prop where
  /-- Every code point of a lower-cased string is lower-case stable. -/
  lower_output : ∀ s : JSString, ∀ c ∈ U.toLowerCase s, U.toLowerCase [c] = [c]
  /-- A string of lower-case stable code points is left unchanged. -/
  lower_fixed : ∀ s : JSString, (∀ c ∈ s, U.toLowerCase [c] = [c]) → U.toLowerCase s = s
  /-- The decomposition of a lower-case stable code point is lower-case stable. -/
  lower_decomposition : ∀ c : Nat, U.toLowerCase [c] = [c] →
    ∀ d ∈ U.decomposition c, U.toLowerCase [d] = [d]
  /-- The table targets are lower-case stable. -/
  lower_replacement : ∀ c ∈ specialClass, ∀ d ∈ replacement c, U.toLowerCase [d] = [d]
  /-- Decompositions are full: their code points do not decompose further. -/
  decomposition_full : ∀ c : Nat, ∀ d ∈ U.decomposition c, U.decomposition d = [d]
  /-- The table letters decompose. -/
  special_decompose : ∀ c ∈ specialClass, U.decomposition c ≠ [c]
  /-- In the stripped range only U+034F is a starter. -/
  mark_nonstarter : ∀ c : Nat, 0x0300 ≤ c → c ≤ 0x036F → c ≠ 0x034F → 0 < U.combiningClass c
  /-- Lower-casing does not create U+034F. -/
  joiner_lower : ∀ s : JSString, 0x034F ∈ U.toLowerCase s → 0x034F ∈ s
  /-- Decomposition does not create U+034F. -/
  joiner_decomposition : ∀ c : Nat, 0x034F ∈ U.decomposition c → c = 0x034F

/-! ## Auxiliary facts on strings -/

theorem includes_iff_infix (hay needle : JSString) :
    includes hay needle = true ↔ needle <:+: hay := by
  induction hay with
  | nil => cases needle <;> simp [includes]
  | cons c hay ih =>
    rw [includes, Bool.or_eq_true, ih, List.infix_cons_iff, List.isPrefixOf_iff_prefix]

theorem stripMarks_idem (s : JSString) : stripMarks (stripMarks s) = stripMarks s := by
  simp [stripMarks]

theorem trim_sublist (s : JSString) : (trim s).Sublist s := by
  unfold trim
  exact (List.IsPrefix.sublist (List.rdropWhile_prefix _ _)).trans (List.dropWhile_sublist _)

theorem stripMarks_trim_stripMarks (s : JSString) :
    stripMarks (trim (stripMarks s)) = trim (stripMarks s) := by
  unfold stripMarks
  rw [List.filter_eq_self]
  intro c hc
  have hmem := (trim_sublist _).subset hc
  exact (List.mem_filter.mp hmem).2

theorem dropWhile_prefix_of_head {p : Nat → Bool} {a : Nat} {l r : List Nat}
    (ha : p a = false) (hr : r <+: a :: l) : r.dropWhile p = r := by
  cases r with
  | nil => rfl
  | cons b r =>
    obtain ⟨t, ht⟩ := hr
    have hb : b = a := by
      simp only [List.cons_append, List.cons.injEq] at ht
      exact ht.1
    subst hb
    simp [List.dropWhile_cons, ha]

theorem trim_idem (s : JSString) : trim (trim s) = trim s := by
  unfold trim
  have h1 : List.dropWhile isWhiteSpace ((s.dropWhile isWhiteSpace).rdropWhile isWhiteSpace)
      = (s.dropWhile isWhiteSpace).rdropWhile isWhiteSpace := by
    cases hd : s.dropWhile isWhiteSpace with
    | nil => simp
    | cons a l =>
      have hne : s.dropWhile isWhiteSpace ≠ [] := by simp [hd]
      have hhead := List.head_dropWhile_not isWhiteSpace s hne
      simp only [hd, List.head_cons] at hhead
      exact dropWhile_prefix_of_head hhead (List.rdropWhile_prefix _ _)
  rw [h1, List.rdropWhile_idempotent]

/-- A normal form is left unchanged by the last two steps of the pipeline. -/
theorem trim_stripMarks_normalizeText (U : UnicodeData) (x : Option JSString) :
    trim (stripMarks (normalizeText U x)) = normalizeText U x := by
  unfold normalizeText
  split
  · rfl
  · rfl
  · rw [stripMarks_trim_stripMarks, trim_idem]

/-! ## Properties -/

set_option maxRecDepth 100000 in
/-- C1, as stated, fails: for alef, hataf segol, U+034F, sheva the first pass
removes U+034F (a starter inside the stripped range) and the second pass then
reorders the two points, so the second normal form differs from the first. -/
theorem normalizeText_not_idempotent :
    normalizeText ucd (some (normalizeText ucd (some [0x05D0, 0x05B1, 0x034F, 0x05B0])))
      ≠ normalizeText ucd (some [0x05D0, 0x05B1, 0x034F, 0x05B0]) := by
  decide

/-! ### Canonical ordering and removal of marks -/

theorem placeMark_head (ccc : Nat → Nat) (c : Nat) (l : List Nat) :
    ∃ e t, placeMark ccc c l = e :: t ∧ (e = c ∨ ∃ l', l = e :: l') := by
  cases l with
  | nil => exact ⟨c, [], rfl, Or.inl rfl⟩
  | cons d l =>
    by_cases h : 0 < ccc d ∧ ccc d < ccc c
    · exact ⟨d, placeMark ccc c l, by simp [placeMark, h], Or.inr ⟨l, rfl⟩⟩
    · exact ⟨c, d :: l, by simp [placeMark, h], Or.inl rfl⟩

theorem ordered_placeMark (ccc : Nat → Nat) (c : Nat) (l : List Nat) (h : Ordered ccc l) :
    Ordered ccc (placeMark ccc c l) := by
  induction l with
  | nil => simp [placeMark, Ordered]
  | cons d l ih =>
    by_cases hd : 0 < ccc d ∧ ccc d < ccc c
    · have hl : Ordered ccc l := List.Chain'.tail h
      obtain ⟨e, t, het, hor⟩ := placeMark_head ccc c l
      have ih' := ih hl
      simp only [placeMark, hd, and_self, if_true]
      rw [het] at ih' ⊢
      refine List.Chain'.cons ?_ ih'
      rcases hor with rfl | ⟨l', rfl⟩
      · omega
      · exact (List.chain'_cons.mp h).1
    · simp only [placeMark, hd, if_false]
      exact List.Chain'.cons hd h

theorem ordered_canonicalOrder (ccc : Nat → Nat) (l : List Nat) :
    Ordered ccc (canonicalOrder ccc l) := by
  induction l with
  | nil => simp [canonicalOrder, Ordered]
  | cons c l ih => exact ordered_placeMark ccc c _ ih

/-- Placing a mark that the filter drops leaves the filtered string unchanged. -/
theorem filter_placeMark_of_drop (ccc : Nat → Nat) (keep : Nat → Bool) (c : Nat)
    (hc : keep c = false) (l : List Nat) :
    (placeMark ccc c l).filter keep = l.filter keep := by
  induction l with
  | nil => simp [placeMark, hc]
  | cons d l ih =>
    by_cases hd : 0 < ccc d ∧ ccc d < ccc c
    · simp only [placeMark, hd, and_self, if_true, List.filter_cons, ih]
    · simp only [placeMark, hd, if_false]
      rw [List.filter_cons_of_neg (by simp [hc])]

/-- In an ordered string, behind a non-starter `d` of class at least that of
`c`, the first kept code point does not let `c` pass. -/
theorem placeMark_filter_blocked (ccc : Nat → Nat) (keep : Nat → Bool)
    (hkeep : ∀ a, keep a = false → 0 < ccc a) (c : Nat) (l : List Nat) :
    ∀ d, Ordered ccc (d :: l) → 0 < ccc d → ccc c ≤ ccc d →
      placeMark ccc c (l.filter keep) = c :: l.filter keep := by
  induction l with
  | nil => intro d _ _ _; rfl
  | cons e l ih =>
    intro d hord hd hcd
    have hde : ¬ (0 < ccc e ∧ ccc e < ccc d) := (List.chain'_cons.mp hord).1
    have hord' : Ordered ccc (e :: l) := List.Chain'.tail hord
    cases hk : keep e with
    | true =>
      rw [List.filter_cons_of_pos hk]
      have : ¬ (0 < ccc e ∧ ccc e < ccc c) := by omega
      simp [placeMark, this]
    | false =>
      rw [List.filter_cons_of_neg (by simp [hk])]
      have he := hkeep e hk
      exact ih e hord' he (by omega)

/-- Placing a kept code point commutes with a filter that drops only non-starters. -/
theorem placeMark_filter_of_keep (ccc : Nat → Nat) (keep : Nat → Bool)
    (hkeep : ∀ a, keep a = false → 0 < ccc a) (c : Nat) (hc : keep c = true) (l : List Nat)
    (hl : Ordered ccc l) :
    placeMark ccc c (l.filter keep) = (placeMark ccc c l).filter keep := by
  induction l with
  | nil => simp [placeMark, hc]
  | cons d l ih =>
    have hl' : Ordered ccc l := List.Chain'.tail hl
    by_cases hd : 0 < ccc d ∧ ccc d < ccc c
    · simp only [placeMark, hd, and_self, if_true]
      cases hk : keep d with
      | true =>
        rw [List.filter_cons_of_pos hk, List.filter_cons_of_pos hk]
        simp only [placeMark, hd, and_self, if_true, ih hl']
      | false =>
        rw [List.filter_cons_of_neg (by simp [hk]), List.filter_cons_of_neg (by simp [hk])]
        exact ih hl'
    · simp only [placeMark, hd, if_false]
      rw [List.filter_cons_of_pos hc]
      cases hk : keep d with
      | true =>
        rw [List.filter_cons_of_pos hk]
        simp [placeMark, hd]
      | false =>
        rw [List.filter_cons_of_neg (by simp [hk])]
        have h0 := hkeep d hk
        exact placeMark_filter_blocked ccc keep hkeep c l d hl h0 (by omega)

/-- Canonical ordering commutes with a filter that drops only non-starters. -/
theorem canonicalOrder_filter (ccc : Nat → Nat) (keep : Nat → Bool)
    (hkeep : ∀ a, keep a = false → 0 < ccc a) (l : List Nat) :
    canonicalOrder ccc (l.filter keep) = (canonicalOrder ccc l).filter keep := by
  induction l with
  | nil => rfl
  | cons c l ih =>
    cases hk : keep c with
    | true =>
      rw [List.filter_cons_of_pos hk]
      simp only [canonicalOrder]
      rw [ih, placeMark_filter_of_keep ccc keep hkeep c hk _ (ordered_canonicalOrder ccc l)]
    | false =>
      rw [List.filter_cons_of_neg (by simp [hk])]
      simp only [canonicalOrder]
      rw [filter_placeMark_of_drop ccc keep c hk, ih]

theorem keepUnstripped_false (ccc : Nat → Nat) (a : Nat) (h : keepUnstripped ccc a = false) :
    0 < ccc a := by
  simp only [keepUnstripped, Bool.not_eq_false', Bool.and_eq_true, decide_eq_true_eq] at h
  exact h.2

theorem stripMarks_filter_keepUnstripped (ccc : Nat → Nat) (l : List Nat) :
    stripMarks (l.filter (keepUnstripped ccc)) = stripMarks l := by
  unfold stripMarks
  rw [List.filter_filter]
  congr 1
  funext a
  simp only [keepUnstripped]
  cases (0x0300 ≤ a && a ≤ 0x036F) <;> simp

/-- The stripped canonical ordering of a string depends only on what is left
of it after the non-starters of the stripped range are removed. -/
theorem stripMarks_canonicalOrder_congr (ccc : Nat → Nat) (l l' : List Nat)
    (h : l.filter (keepUnstripped ccc) = l'.filter (keepUnstripped ccc)) :
    stripMarks (canonicalOrder ccc l) = stripMarks (canonicalOrder ccc l') := by
  rw [← stripMarks_filter_keepUnstripped ccc (canonicalOrder ccc l),
    ← stripMarks_filter_keepUnstripped ccc (canonicalOrder ccc l'),
    ← canonicalOrder_filter ccc _ (keepUnstripped_false ccc),
    ← canonicalOrder_filter ccc _ (keepUnstripped_false ccc), h]

theorem filter_decomposition_replaceSpecial (U : UnicodeData) (hU : SpecialLettersDecompose U)
    (t : JSString) :
    ((replaceSpecial t).flatMap U.decomposition).filter (keepUnstripped U.combiningClass)
      = (t.flatMap U.decomposition).filter (keepUnstripped U.combiningClass) := by
  induction t with
  | nil => rfl
  | cons c t ih =>
    have hcons : replaceSpecial (c :: t)
        = (if c ∈ specialClass then replacement c else [c]) ++ replaceSpecial t := by
      simp [replaceSpecial, List.flatMap_cons]
    rw [hcons, List.flatMap_append, List.filter_append, ih, List.flatMap_cons,
      List.filter_append]
    congr 1
    by_cases hc : c ∈ specialClass
    · obtain ⟨hpre, hmarks, hfix⟩ := hU c hc
      rw [if_pos hc, hfix]
      obtain ⟨m, hm⟩ := hpre
      have hdrop : (U.decomposition c).drop (replacement c).length = m := by
        rw [← hm]; simp
      rw [hdrop] at hmarks
      rw [← hm, List.filter_append]
      have : m.filter (keepUnstripped U.combiningClass) = [] := by
        rw [List.filter_eq_nil_iff]
        intro a ha
        obtain ⟨h1, h2, h3⟩ := hmarks a ha
        simp [keepUnstripped, h1, h2, h3]
      rw [this, List.append_nil]
    · rw [if_neg hc]
      simp

set_option maxRecDepth 100000 in
/-- C2, as stated, fails: for each of the five table letters, canonical
decomposition followed by stripping U+0300..U+036F, without the table
substitution, already yields the table's ASCII target. -/
theorem decomposition_yields_table_target :
    ¬ ∃ c ∈ specialClass, stripMarks (normalizeNFD ucd [c]) ≠ replacement c := by
  decide

/-- C2, amended: the table substitution is redundant.  When each table letter
decomposes into its table target followed by non-starter marks of
U+0300..U+036F (as it does in the Unicode Character Database), `normalizeText`
equals the same pipeline without the substitution on every input. -/
theorem normalizeText_eq_withoutSubstitution (U : UnicodeData)
    (hU : SpecialLettersDecompose U) (text : Option JSString) :
    normalizeText U text = normalizeTextWithoutSubstitution U text := by
  unfold normalizeText normalizeTextWithoutSubstitution
  split
  · rfl
  · rfl
  · unfold normalizeNFD
    rw [stripMarks_canonicalOrder_congr U.combiningClass _ _
      (filter_decomposition_replaceSpecial U hU _)]

set_option maxRecDepth 100000 in
/-- Instance of the amended C2 on `"Ǧar ṭṭejra"` with the database values. -/
theorem normalizeText_eq_withoutSubstitution_witness :
    SpecialLettersDecompose ucd ∧
      normalizeText ucd (some (str "Ǧar ṭṭejra"))
        = normalizeTextWithoutSubstitution ucd (some (str "Ǧar ṭṭejra")) :=
  ⟨by unfold SpecialLettersDecompose; decide,
    normalizeText_eq_withoutSubstitution ucd (by unfold SpecialLettersDecompose; decide)
      (some (str "Ǧar ṭṭejra"))⟩

/-! ### Splitting -/

theorem split_ne_nil (sep : Nat) (s : JSString) : split sep s ≠ [] := by
  cases s with
  | nil => simp [split]
  | cons c s =>
    unfold split
    split
    · simp
    · split <;> simp

theorem intercalate_split (sep : Nat) (s : JSString) :
    List.intercalate [sep] (split sep s) = s := by
  induction s with
  | nil => simp [split, List.intercalate]
  | cons c s ih =>
    have hne := split_ne_nil sep s
    unfold split
    split
    next h =>
      cases hs : split sep s with
      | nil => exact absurd hs hne
      | cons w ws =>
        rw [hs] at ih
        simp only [List.intercalate, List.intersperse_cons_cons, List.flatten_cons,
          List.nil_append, List.singleton_append] at ih ⊢
        rw [ih, h]
    next h =>
      cases hs : split sep s with
      | nil => exact absurd hs hne
      | cons w ws =>
        rw [hs] at ih
        simp only
        cases ws with
        | nil =>
          simp only [List.intercalate, List.intersperse_singleton, List.flatten_cons,
            List.flatten_nil, List.append_nil] at ih ⊢
          rw [ih]
        | cons w' ws' =>
          simp only [List.intercalate, List.intersperse_cons_cons, List.flatten_cons,
            List.cons_append] at ih ⊢
          rw [ih]

theorem not_mem_of_mem_split (sep : Nat) (s : JSString) :
    ∀ p ∈ split sep s, sep ∉ p := by
  induction s with
  | nil => simp [split]
  | cons c s ih =>
    have hne := split_ne_nil sep s
    unfold split
    split
    next h =>
      intro p hp
      rcases List.mem_cons.mp hp with rfl | hp
      · simp
      · exact ih p hp
    next h =>
      cases hs : split sep s with
      | nil => exact absurd hs hne
      | cons w ws =>
        rw [hs] at ih
        intro p hp
        rcases List.mem_cons.mp hp with rfl | hp
        · intro hmem
          rcases List.mem_cons.mp hmem with h1 | h1
          · exact h h1.symm
          · exact ih w (List.mem_cons_self _ _) h1
        · exact ih p (List.mem_cons_of_mem _ hp)

set_option maxRecDepth 100000 in
/-- C3, as stated, fails: the search `a<TAB>b` yields the single keyword
`a<TAB>b`; the tab does not separate two keywords and the keyword contains a
white-space character. -/
theorem keywords_tab_not_separator :
    keywords ucd [0x61, 0x09, 0x62] = [[0x61, 0x09, 0x62]] ∧
      ∃ k ∈ keywords ucd [0x61, 0x09, 0x62], ∃ c ∈ k, isWhiteSpace c = true := by
  decide

/-- C3, amended: the keywords are exactly the non-empty tokens of
`normalizeText(search)` delimited by the space character U+0020.  The
normalized text is the join, with single spaces, of pieces that contain no
space, and the keywords are the non-empty pieces in order; so no keyword is
empty or contains a space. -/
theorem keywords_space_delimited (U : UnicodeData) (search : JSString) :
    (∃ pieces : List JSString,
        List.intercalate [0x20] pieces = normalizeText U (some search) ∧
        (∀ p ∈ pieces, 0x20 ∉ p) ∧
        keywords U search = pieces.filter fun p => decide (p ≠ [])) ∧
      ∀ k ∈ keywords U search, k ≠ [] ∧ 0x20 ∉ k := by
  constructor
  · refine ⟨split 0x20 (normalizeText U (some search)), intercalate_split _ _,
      not_mem_of_mem_split _ _, ?_⟩
    unfold keywords
    simp only
    congr 1
    funext k
    cases k <;> simp
  · intro k hk
    unfold keywords at hk
    simp only [List.mem_filter, decide_eq_true_eq] at hk
    refine ⟨?_, not_mem_of_mem_split _ _ k hk.1⟩
    intro h0
    rw [h0] at hk
    simp at hk

set_option maxRecDepth 100000 in
/-- C4: for a non-empty search, a record is retained by the keyword filter
exactly when it is in the record set and every keyword is a substring of its
haystack `kabyle_norm + " " + francais_norm + " " + theme_norm`; and on the
two records of the end-to-end example the search `salut` gives
`totalResults` 1, `currentPage` 0 and the single record with id 1. -/
theorem searchFilter_and_semantics (U : UnicodeData) (proverbs : List Proverb)
    (search : JSString) (hs : search ≠ []) (p : Proverb) :
    (p ∈ searchFilter U (some search) proverbs ↔
        p ∈ proverbs ∧ ∀ k ∈ keywords U search, k <:+: searchableText p) ∧
      handler ucd (loadProverbs ucd exampleData) (Query.mk (some (str "salut")) none none none)
        = Response.mk 1 (JSNumber.fin 0)
            [Proverb.mk
              (RawProverb.mk (some (str "Azul fell-ak")) (some (str "Salut à toi"))
                (some (str "Salutations")) [])
              1 (str "azul fell-ak") (str "salut a toi") (str "salutations")] := by
  refine ⟨?_, by decide⟩
  cases search with
  | nil => exact absurd rfl hs
  | cons c s =>
    simp only [searchFilter, List.mem_filter, List.all_eq_true, includes_iff_infix]

set_option maxRecDepth 100000 in
/-- Instance of C4: the second record of the example is retained by the search
`azul salut`, both keywords occurring in its haystack. -/
theorem searchFilter_and_semantics_witness :
    str "azul salut" ≠ [] ∧
      ((loadProverbs ucd exampleData).get ⟨1, by decide⟩
          ∈ searchFilter ucd (some (str "azul salut")) (loadProverbs ucd exampleData) ↔
        (loadProverbs ucd exampleData).get ⟨1, by decide⟩ ∈ loadProverbs ucd exampleData ∧
          ∀ k ∈ keywords ucd (str "azul salut"),
            k <:+: searchableText ((loadProverbs ucd exampleData).get ⟨1, by decide⟩)) :=
  ⟨by decide,
    (searchFilter_and_semantics ucd (loadProverbs ucd exampleData) (str "azul salut")
      (by decide) ((loadProverbs ucd exampleData).get ⟨1, by decide⟩)).1⟩

set_option maxRecDepth 100000 in
/-- C5: for a theme that is not the sentinel `tous`, a record is retained by
the theme filter exactly when it is in the record set and its `theme_norm`
contains `normalizeText(theme)` as a substring; and the example record of
theme `Sagesse` (id 0) is retained for the theme `sagess` and not for
`sagesse-x`. -/
theorem themeFilter_substring (U : UnicodeData) (results : List Proverb)
    (theme : JSString) (ht : theme ≠ str "tous") (p : Proverb) :
    (p ∈ themeFilter U (some theme) results ↔
        p ∈ results ∧ normalizeText U (some theme) <:+: p.theme_norm) ∧
      (themeFilter ucd (some (str "sagess")) (loadProverbs ucd exampleData)).map Proverb.id
        = [0] ∧
      (themeFilter ucd (some (str "sagesse-x")) (loadProverbs ucd exampleData)).map Proverb.id
        = [] := by
  refine ⟨?_, by decide, by decide⟩
  cases theme with
  | nil => simp [themeFilter, normalizeText]
  | cons c t =>
    simp only [themeFilter, if_pos ht, List.mem_filter, includes_iff_infix]

set_option maxRecDepth 100000 in
/-- Instance of C5 on the example records with the theme `Salut`. -/
theorem themeFilter_substring_witness :
    str "Salut" ≠ str "tous" ∧
      ((loadProverbs ucd exampleData).get ⟨1, by decide⟩
          ∈ themeFilter ucd (some (str "Salut")) (loadProverbs ucd exampleData) ↔
        (loadProverbs ucd exampleData).get ⟨1, by decide⟩ ∈ loadProverbs ucd exampleData ∧
          normalizeText ucd (some (str "Salut"))
            <:+: ((loadProverbs ucd exampleData).get ⟨1, by decide⟩).theme_norm) :=
  ⟨by decide,
    (themeFilter_substring ucd (loadProverbs ucd exampleData) (str "Salut") (by decide)
      ((loadProverbs ucd exampleData).get ⟨1, by decide⟩)).1⟩

/-! ### Rounding to a double -/

theorem log2Fuel_eq_log2 (fuel : Nat) : ∀ n : Nat, n ≤ fuel → log2Fuel fuel n = Nat.log2 n := by
  induction fuel with
  | zero =>
    intro n hn
    have : n = 0 := by omega
    rw [this]
    simp [log2Fuel]
  | succ fuel ih =>
    intro n hn
    rw [log2Fuel, Nat.log2]
    by_cases h : n < 2
    · rw [if_pos h, if_neg (by omega)]
    · rw [if_neg h, if_pos (by omega), ih (n / 2) (by omega)]

theorem roundNat_eq (n : Nat) :
    roundNat n = if n < 2 ^ 53 then some n
      else if roundAt (Nat.log2 n - 52) n < 2 ^ 1024 then some (roundAt (Nat.log2 n - 52) n)
      else none := by
  unfold roundNat
  rw [log2Fuel_eq_log2 n n (Nat.le_refl n)]


theorem roundAt_mul (e a : Nat) : roundAt e (a * 2 ^ e) = a * 2 ^ e := by
  have hpos : 0 < 2 ^ e := Nat.two_pow_pos _
  have hhalf : 0 < 2 ^ (e - 1) := Nat.two_pow_pos _
  unfold roundAt
  rw [Nat.mul_mod_left, Nat.mul_div_cancel _ hpos]
  have hc : ¬ (2 ^ (e - 1) < 0 ∨ (0 = 2 ^ (e - 1) ∧ a % 2 = 1)) := by omega
  rw [if_neg hc]

theorem roundNat_small (n : Nat) (h : n < 2 ^ 53) : roundNat n = some n := by
  rw [roundNat_eq]
  rw [if_pos h]

theorem roundAt_bounds (n : Nat) (h : 2 ^ 53 ≤ n) :
    ∃ a : Nat, roundAt (Nat.log2 n - 52) n = a * 2 ^ (Nat.log2 n - 52) ∧
      2 ^ 52 ≤ a ∧ a ≤ 2 ^ 53 ∧ 1 ≤ Nat.log2 n - 52 ∧
      2 ^ 53 ≤ roundAt (Nat.log2 n - 52) n ∧
      2 ^ 53 * roundAt (Nat.log2 n - 52) n ≤ 2 ^ 53 * n + n ∧
      2 ^ 53 * n ≤ 2 ^ 53 * roundAt (Nat.log2 n - 52) n + n := by
  have hn : n ≠ 0 := by
    intro h0
    rw [h0] at h
    exact absurd h (by decide)
  have hk : 53 ≤ Nat.log2 n := (Nat.le_log2 hn).mpr h
  have h1 : 2 ^ Nat.log2 n ≤ n := Nat.log2_self_le hn
  have h2 : n < 2 ^ (Nat.log2 n + 1) := Nat.lt_log2_self
  obtain ⟨e, he⟩ : ∃ e, Nat.log2 n - 52 = e := ⟨_, rfl⟩
  have hke : Nat.log2 n = e + 52 := by omega
  rw [he]
  rw [hke] at h1 h2
  have he1 : 1 ≤ e := by omega
  obtain ⟨d, hd⟩ : ∃ d, e = d + 1 := ⟨e - 1, by omega⟩
  have hE : 2 ^ e = 2 * 2 ^ d := by rw [hd, Nat.pow_succ]; ring
  have hp1 : 2 ^ (e + 52) = 2 ^ 52 * 2 ^ e := by rw [Nat.pow_add]; ring
  have hp2 : 2 ^ (e + 52 + 1) = 2 ^ 53 * 2 ^ e := by
    rw [show e + 52 + 1 = e + 53 by omega, Nat.pow_add]; ring
  rw [hp1] at h1
  rw [hp2] at h2
  have hpos : 0 < 2 ^ e := Nat.two_pow_pos _
  have hdpos : 0 < 2 ^ d := Nat.two_pow_pos _
  have hq1 : 2 ^ 52 ≤ n / 2 ^ e := (Nat.le_div_iff_mul_le hpos).mpr h1
  have hq2 : n / 2 ^ e < 2 ^ 53 := (Nat.div_lt_iff_lt_mul hpos).mpr h2
  have hdiv : 2 ^ e * (n / 2 ^ e) + n % 2 ^ e = n := Nat.div_add_mod n (2 ^ e)
  have hmod : n % 2 ^ e < 2 ^ e := Nat.mod_lt _ hpos
  have hA : 2 ^ 52 * 2 ^ e ≤ n / 2 ^ e * 2 ^ e := Nat.mul_le_mul_right _ hq1
  have hd1 : e - 1 = d := by omega
  unfold roundAt
  rw [hd1]
  rw [Nat.mul_comm] at hdiv
  generalize n / 2 ^ e = q at *
  generalize n % 2 ^ e = r at *
  generalize hAq : q * 2 ^ e = A at *
  split
  next hc =>
    refine ⟨q + 1, rfl, by omega, by omega, he1, ?_, ?_, ?_⟩
    all_goals (rw [Nat.add_mul, hAq, Nat.one_mul]; generalize 2 ^ e = E at *; generalize 2 ^ d = D at *; omega)
  next hc =>
    refine ⟨q, rfl, by omega, by omega, he1, ?_, ?_, ?_⟩
    all_goals (rw [hAq]; generalize 2 ^ e = E at *; generalize 2 ^ d = D at *; omega)

theorem roundNat_large (n m : Nat) (h : 2 ^ 53 ≤ n) (hm : roundNat n = some m) :
    2 ^ 53 ≤ m ∧ 2 ^ 53 * m ≤ 2 ^ 53 * n + n ∧ 2 ^ 53 * n ≤ 2 ^ 53 * m + n ∧
      roundNat m = some m := by
  obtain ⟨a, ha, ha1, ha2, he, hb1, hb2, hb3⟩ := roundAt_bounds n h
  rw [roundNat_eq] at hm
  rw [if_neg (by omega)] at hm
  split at hm
  next hlt =>
    simp only [Option.some.injEq] at hm
    rw [hm] at ha hb1 hb2 hb3 hlt
    refine ⟨hb1, hb2, hb3, ?_⟩
    obtain ⟨e, hee⟩ : ∃ e, Nat.log2 n - 52 = e := ⟨_, rfl⟩
    rw [hee] at ha he
    have hpos : 0 < 2 ^ e := Nat.two_pow_pos _
    have hm0 : m ≠ 0 := by omega
    have hlog : Nat.log2 m - 52 = e ∨ (Nat.log2 m - 52 = e + 1 ∧ a = 2 ^ 53) := by
      by_cases hcase : a < 2 ^ 53
      · left
        have h1 : e + 52 ≤ Nat.log2 m := by
          rw [Nat.le_log2 hm0, ha, Nat.pow_add, Nat.mul_comm]
          exact Nat.mul_le_mul_right _ ha1
        have h2 : Nat.log2 m < e + 53 := by
          rw [Nat.log2_lt hm0, ha, Nat.pow_add, Nat.mul_comm (2 ^ e)]
          exact Nat.mul_lt_mul_of_pos_right hcase hpos
        omega
      · right
        have ha3 : a = 2 ^ 53 := by omega
        refine ⟨?_, ha3⟩
        have : m = 2 ^ (e + 53) := by rw [ha, ha3, Nat.pow_add, Nat.mul_comm]
        rw [this, Nat.log2_two_pow]
        omega
    rw [roundNat_eq]
    rw [if_neg (by omega)]
    have hfix : roundAt (Nat.log2 m - 52) m = m := by
      rcases hlog with hl | ⟨hl, ha3⟩
      · rw [hl, ha, roundAt_mul e a]
      · rw [hl]
        have hm2 : m = 2 ^ 52 * 2 ^ (e + 1) := by
          rw [ha, ha3, Nat.pow_succ]; ring
        rw [hm2, roundAt_mul (e + 1) (2 ^ 52)]
    rw [hfix, if_pos hlt]
  next hlt => exact absurd hm (by simp)

theorem ofInt_small (x : Int) (h1 : -2 ^ 53 < x) (h2 : x < 2 ^ 53) :
    JSNumber.ofInt x = JSNumber.fin x := by
  unfold JSNumber.ofInt
  rw [roundNat_small x.natAbs (by omega)]
  simp only
  congr 1
  split <;> omega

theorem ofInt_large_pos (x : Int) (h : 2 ^ 53 ≤ x) :
    JSNumber.ofInt x = JSNumber.inf false ∨
      ∃ m : Int, JSNumber.ofInt x = JSNumber.fin m ∧ 2 ^ 53 ≤ m ∧
        2 ^ 53 * (m - x) ≤ x ∧ 2 ^ 53 * (x - m) ≤ x ∧
        JSNumber.ofInt m = JSNumber.fin m ∧ JSNumber.ofInt (-m) = JSNumber.fin (-m) := by
  unfold JSNumber.ofInt
  cases hr : roundNat x.natAbs with
  | none =>
    left
    simp only [JSNumber.inf.injEq, decide_eq_false_iff_not]
    omega
  | some m =>
    right
    obtain ⟨hm1, hm2, hm3, hm4⟩ := roundNat_large x.natAbs m (by omega) hr
    refine ⟨(m : Int), ?_, by omega, by omega, by omega, ?_, ?_⟩
    · simp only [JSNumber.fin.injEq]
      rw [if_neg (by omega)]
    · have : ((m : Int)).natAbs = m := Int.natAbs_ofNat m
      rw [this, hm4]
      simp only [JSNumber.fin.injEq]
      rw [if_neg (by omega)]
    · have : (-(m : Int)).natAbs = m := by omega
      rw [this, hm4]
      simp only [JSNumber.fin.injEq]
      rw [if_pos (by omega)]

theorem ofInt_large_neg (x : Int) (h : x ≤ -2 ^ 53) :
    JSNumber.ofInt x = JSNumber.inf true ∨
      ∃ m : Int, JSNumber.ofInt x = JSNumber.fin m ∧ m ≤ -2 ^ 53 ∧
        2 ^ 53 * (m - x) ≤ -x ∧ 2 ^ 53 * (x - m) ≤ -x ∧
        JSNumber.ofInt m = JSNumber.fin m ∧ JSNumber.ofInt (-m) = JSNumber.fin (-m) := by
  unfold JSNumber.ofInt
  cases hr : roundNat x.natAbs with
  | none =>
    left
    simp only [JSNumber.inf.injEq, decide_eq_true_eq]
    omega
  | some m =>
    right
    obtain ⟨hm1, hm2, hm3, hm4⟩ := roundNat_large x.natAbs m (by omega) hr
    refine ⟨-(m : Int), ?_, by omega, by omega, by omega, ?_, ?_⟩
    · simp only [JSNumber.fin.injEq]
      rw [if_pos (by omega)]
    · have : (-(m : Int)).natAbs = m := by omega
      rw [this, hm4]
      simp only [JSNumber.fin.injEq]
      rw [if_pos (by omega)]
    · have : (- -(m : Int)).natAbs = m := by omega
      rw [this, hm4]
      simp only [JSNumber.fin.injEq]
      rw [if_neg (by omega)]
      omega

/-- On lists shorter than `2 ^ 53`, the relative index of the double nearest to
an integer is the relative index of the integer itself. -/
theorem relativeIndex_ofInt (len : Nat) (hlen : len < 2 ^ 53) (x : Int) :
    relativeIndex len (JSNumber.ofInt x) = relativeIndex len (JSNumber.fin x) := by
  by_cases h1 : 2 ^ 53 ≤ x
  · rcases ofInt_large_pos x h1 with h | ⟨m, h, hm, _⟩
    · rw [h]; simp only [relativeIndex]; split_ifs <;> omega
    · rw [h]; simp only [relativeIndex]; split_ifs <;> omega
  · by_cases h2 : x ≤ -2 ^ 53
    · rcases ofInt_large_neg x h2 with h | ⟨m, h, hm, _⟩
      · rw [h]; simp only [relativeIndex]; split_ifs <;> omega
      · rw [h]; simp only [relativeIndex]; split_ifs <;> omega
    · rw [ofInt_small x (by omega) (by omega)]

theorem mul_facts (p l : Int) :
    (p = 0 → p * l = 0) ∧ (l = 0 → p * l = 0) ∧ (p = -1 → p * l = -l) ∧
    (0 < p → 0 < l → p ≤ p * l ∧ l ≤ p * l ∧ (2 ≤ p → 2 * l ≤ p * l)) ∧
    (0 < p → l < 0 → p * l ≤ -p ∧ p * l ≤ l ∧ (2 ≤ p → p * l ≤ 2 * l)) ∧
    (p < 0 → 0 < l → p * l ≤ p ∧ p * l ≤ -l ∧ (p ≤ -2 → p * l ≤ -(2 * l))) ∧
    (p < 0 → l < 0 → -p ≤ p * l ∧ -l ≤ p * l ∧ (p ≤ -2 → -(2 * l) ≤ p * l)) := by
  refine ⟨fun h => by rw [h]; ring, fun h => by rw [h]; ring, fun h => by rw [h]; ring,
    fun hp hl => ⟨?_, ?_, fun h2 => ?_⟩, fun hp hl => ⟨?_, ?_, fun h2 => ?_⟩,
    fun hp hl => ⟨?_, ?_, fun h2 => ?_⟩, fun hp hl => ⟨?_, ?_, fun h2 => ?_⟩⟩ <;> nlinarith

/-- The double nearest to an integer: either finite, with the same sign, exact
below `2 ^ 53` and of magnitude at least `2 ^ 53` otherwise, and itself a
double; or an infinity of the sign of the integer. -/
theorem ofInt_form (x : Int) :
    (∃ x' : Int, JSNumber.ofInt x = JSNumber.fin x' ∧
      ((-2 ^ 53 < x ∧ x < 2 ^ 53 ∧ x' = x) ∨ (2 ^ 53 ≤ x ∧ 2 ^ 53 ≤ x') ∨
        (x ≤ -2 ^ 53 ∧ x' ≤ -2 ^ 53)) ∧
      JSNumber.ofInt (-x') = JSNumber.fin (-x')) ∨
    (JSNumber.ofInt x = JSNumber.inf false ∧ 2 ^ 53 ≤ x) ∨
    (JSNumber.ofInt x = JSNumber.inf true ∧ x ≤ -2 ^ 53) := by
  by_cases h1 : 2 ^ 53 ≤ x
  · rcases ofInt_large_pos x h1 with h | ⟨m, h, hm, _, _, _, hr⟩
    · exact Or.inr (Or.inl ⟨h, h1⟩)
    · exact Or.inl ⟨m, h, Or.inr (Or.inl ⟨h1, hm⟩), hr⟩
  · by_cases h2 : x ≤ -2 ^ 53
    · rcases ofInt_large_neg x h2 with h | ⟨m, h, hm, _, _, _, hr⟩
      · exact Or.inr (Or.inr ⟨h, h2⟩)
      · exact Or.inl ⟨m, h, Or.inr (Or.inr ⟨h2, hm⟩), hr⟩
    · exact Or.inl ⟨x, ofInt_small x (by omega) (by omega), Or.inl ⟨by omega, by omega, rfl⟩,
        ofInt_small (-x) (by omega) (by omega)⟩

/-- Signs and sizes of a product, as far as a comparison with `2 ^ 53` needs them. -/
theorem mul_sign_size (p l : Int) :
    (p = 0 ∧ p * l = 0) ∨ (l = 0 ∧ p * l = 0) ∨
    (0 < p ∧ 0 < l ∧ p ≤ p * l ∧ l ≤ p * l) ∨
    (0 < p ∧ l < 0 ∧ p * l ≤ -p ∧ p * l ≤ l) ∨
    (p < 0 ∧ 0 < l ∧ p * l ≤ p ∧ p * l ≤ -l ∧ (p = -1 → p * l = -l) ∧
      (p ≤ -2 → p * l ≤ -(2 * l))) ∨
    (p < 0 ∧ l < 0 ∧ -p ≤ p * l ∧ -l ≤ p * l) := by
  obtain ⟨e1, e2, e3, e4, e5, e6, e7⟩ := mul_facts p l
  rcases lt_trichotomy p 0 with hp | hp | hp
  · rcases lt_trichotomy l 0 with hl | hl | hl
    · exact Or.inr (Or.inr (Or.inr (Or.inr (Or.inr ⟨hp, hl, (e7 hp hl).1, (e7 hp hl).2.1⟩))))
    · exact Or.inr (Or.inl ⟨hl, e2 hl⟩)
    · exact Or.inr (Or.inr (Or.inr (Or.inr (Or.inl
        ⟨hp, hl, (e6 hp hl).1, (e6 hp hl).2.1, e3, (e6 hp hl).2.2⟩))))
  · exact Or.inl ⟨hp, e1 hp⟩
  · rcases lt_trichotomy l 0 with hl | hl | hl
    · exact Or.inr (Or.inr (Or.inr (Or.inl ⟨hp, hl, (e5 hp hl).1, (e5 hp hl).2.1⟩)))
    · exact Or.inr (Or.inl ⟨hl, e2 hl⟩)
    · exact Or.inr (Or.inr (Or.inl ⟨hp, hl, (e4 hp hl).1, (e4 hp hl).2.1⟩))

/-- Rounding the factors keeps the product exact below `2 ^ 53` and large,
with the same sign, otherwise. -/
theorem near_mul (p l p' l' : Int)
    (hp : (-2 ^ 53 < p ∧ p < 2 ^ 53 ∧ p' = p) ∨ (2 ^ 53 ≤ p ∧ 2 ^ 53 ≤ p') ∨
      (p ≤ -2 ^ 53 ∧ p' ≤ -2 ^ 53))
    (hl : (-2 ^ 53 < l ∧ l < 2 ^ 53 ∧ l' = l) ∨ (2 ^ 53 ≤ l ∧ 2 ^ 53 ≤ l') ∨
      (l ≤ -2 ^ 53 ∧ l' ≤ -2 ^ 53)) :
    (-2 ^ 53 < p' * l' ∧ p' * l' < 2 ^ 53 ∧ p' * l' = p * l) ∨
      (2 ^ 53 ≤ p' * l' ∧ 2 ^ 53 ≤ p * l) ∨ (p' * l' ≤ -2 ^ 53 ∧ p * l ≤ -2 ^ 53) := by
  have hsame : p' = p → l' = l → p' * l' = p * l := fun h1 h2 => by rw [h1, h2]
  have hs := mul_sign_size p l
  have ht := mul_sign_size p' l'
  generalize p * l = s at *
  generalize p' * l' = t at *
  rcases hp with hp | hp | hp <;> rcases hl with hl | hl | hl <;>
    rcases hs with hs | hs | hs | hs | hs | hs <;>
    rcases ht with ht | ht | ht | ht | ht | ht <;> omega

/-- When the exact start `p * l` is at most `-2 ^ 53`, the exact end
`p * l + l` is `0` or far below zero. -/
theorem exact_end_of_large_neg (p l : Int) (h : p * l ≤ -2 ^ 53) :
    p * l + l = 0 ∨ p * l + l ≤ -2 ^ 52 := by
  have hs := mul_sign_size p l
  generalize p * l = s at *
  rcases hs with hs | hs | hs | hs | hs | hs <;> omega

/-- When the rounded start `m` of a product `p' * l'` is at most `-2 ^ 53`, the
sum `m + l'` is `0` or far below zero. -/
theorem rounded_end_of_large_neg (p' l' m : Int) (h : p' * l' ≤ -2 ^ 53) (hm : m ≤ -2 ^ 53)
    (herr : 2 ^ 53 * (m - p' * l') ≤ -(p' * l')) (hm1 : p' = -1 → m = -l') :
    m + l' = 0 ∨ m + l' ≤ -2 ^ 51 := by
  have ht := mul_sign_size p' l'
  generalize p' * l' = t at *
  rcases ht with ht | ht | ht | ht | ht | ht <;> omega

theorem relativeIndex_fin_of_end (len : Nat) (hlen : len < 2 ^ 32) (x : Int)
    (h : x = 0 ∨ x ≤ -2 ^ 51) : relativeIndex len (JSNumber.fin x) = 0 := by
  simp only [relativeIndex]
  split_ifs <;> omega

theorem indices_fin_fin (len : Nat) (hlen : len < 2 ^ 32) (p l p' l' : Int)
    (hp : (-2 ^ 53 < p ∧ p < 2 ^ 53 ∧ p' = p) ∨ (2 ^ 53 ≤ p ∧ 2 ^ 53 ≤ p') ∨
      (p ≤ -2 ^ 53 ∧ p' ≤ -2 ^ 53))
    (hl : (-2 ^ 53 < l ∧ l < 2 ^ 53 ∧ l' = l) ∨ (2 ^ 53 ≤ l ∧ 2 ^ 53 ≤ l') ∨
      (l ≤ -2 ^ 53 ∧ l' ≤ -2 ^ 53))
    (hrep : JSNumber.ofInt (-l') = JSNumber.fin (-l')) :
    relativeIndex len (JSNumber.ofInt (p' * l')) = relativeIndex len (JSNumber.fin (p * l)) ∧
      (relativeIndex len ((JSNumber.ofInt (p' * l')).add (JSNumber.fin l'))
          = relativeIndex len (JSNumber.fin (p * l + l)) ∨
        relativeIndex len (JSNumber.fin (p * l)) = len) := by
  have hlen' : len < 2 ^ 53 := by omega
  rcases near_mul p l p' l' hp hl with ⟨h1, h2, h3⟩ | ⟨h1, h2⟩ | ⟨h1, h2⟩
  · -- the product is exact
    rw [ofInt_small _ h1 h2, h3]
    refine ⟨rfl, Or.inl ?_⟩
    show relativeIndex len (JSNumber.ofInt (p * l + l')) = _
    rw [relativeIndex_ofInt len hlen']
    have hs := mul_sign_size p l
    rw [← h3] at hs
    have ht := mul_sign_size p' l'
    generalize p * l = s at *
    generalize p' * l' = t at *
    have hll : s + l' = s + l ∨ (s = 0 ∧
        ((2 ^ 53 ≤ l ∧ 2 ^ 53 ≤ l') ∨ (l ≤ -2 ^ 53 ∧ l' ≤ -2 ^ 53))) := by
      rcases hp with hp | hp | hp <;> rcases hl with hl | hl | hl <;>
        rcases ht with ht | ht | ht | ht | ht | ht <;> omega
    rcases hll with h | ⟨h0, hbig⟩
    · rw [h]
    · rw [h0]
      simp only [relativeIndex]
      split_ifs <;> omega
  · -- the product is large and positive: the page is empty
    have hK : relativeIndex len (JSNumber.fin (p * l)) = len := by
      simp only [relativeIndex]; split_ifs <;> omega
    refine ⟨?_, Or.inr hK⟩
    rw [relativeIndex_ofInt len hlen', hK]
    simp only [relativeIndex]; split_ifs <;> omega
  · -- the product is large and negative: both indices are 0
    have hK : relativeIndex len (JSNumber.fin (p * l)) = 0 := by
      simp only [relativeIndex]; split_ifs <;> omega
    have hF : relativeIndex len (JSNumber.fin (p * l + l)) = 0 :=
      relativeIndex_fin_of_end len hlen _ (by
        rcases exact_end_of_large_neg p l h2 with h | h
        · exact Or.inl h
        · exact Or.inr (by omega))
    refine ⟨?_, Or.inl ?_⟩
    · rw [relativeIndex_ofInt len hlen', hK]
      simp only [relativeIndex]; split_ifs <;> omega
    · rw [hF]
      rcases ofInt_large_neg _ h1 with h | ⟨m, h, hm, herr1, herr2, _, _⟩
      · rw [h]; rfl
      · have hf3 := (mul_facts p' l').2.2.1
        have hm1 : p' = -1 → m = -l' := by
          intro hp1
          rw [hf3 hp1, hrep] at h
          exact (JSNumber.fin.inj h).symm
        rw [h]
        show relativeIndex len (JSNumber.ofInt (m + l')) = 0
        rw [relativeIndex_ofInt len hlen']
        exact relativeIndex_fin_of_end len hlen _
          (rounded_end_of_large_neg p' l' m h1 hm herr1 hm1)

theorem relativeIndex_fin_large (len : Nat) (hlen : len < 2 ^ 32) (x : Int) (h : 2 ^ 53 ≤ x) :
    relativeIndex len (JSNumber.fin x) = len := by
  simp only [relativeIndex]
  split_ifs <;> omega

theorem mul_fin_inf (a : Int) (t : Bool) :
    (a = 0 ∧ (JSNumber.fin a).mul (JSNumber.inf t) = JSNumber.nan) ∨
    (0 < a ∧ (JSNumber.fin a).mul (JSNumber.inf t) = JSNumber.inf t) ∨
    (a < 0 ∧ (JSNumber.fin a).mul (JSNumber.inf t) = JSNumber.inf (!t)) := by
  rcases lt_trichotomy a 0 with h | h | h
  · right; right
    refine ⟨h, ?_⟩
    simp only [JSNumber.mul]
    rw [if_neg (by omega)]
    cases t <;> simp [h]
  · left
    exact ⟨h, by simp [JSNumber.mul, h]⟩
  · right; left
    refine ⟨h, ?_⟩
    simp only [JSNumber.mul]
    rw [if_neg (by omega)]
    have : ¬ a < 0 := by omega
    cases t <;> simp [this]

theorem mul_inf_fin (s : Bool) (b : Int) :
    (b = 0 ∧ (JSNumber.inf s).mul (JSNumber.fin b) = JSNumber.nan) ∨
    (0 < b ∧ (JSNumber.inf s).mul (JSNumber.fin b) = JSNumber.inf s) ∨
    (b < 0 ∧ (JSNumber.inf s).mul (JSNumber.fin b) = JSNumber.inf (!s)) := by
  rcases lt_trichotomy b 0 with h | h | h
  · right; right
    refine ⟨h, ?_⟩
    simp only [JSNumber.mul]
    rw [if_neg (by omega)]
    cases s <;> simp [h]
  · left
    exact ⟨h, by simp [JSNumber.mul, h]⟩
  · right; left
    refine ⟨h, ?_⟩
    simp only [JSNumber.mul]
    rw [if_neg (by omega)]
    have : ¬ b < 0 := by omega
    cases s <;> simp [this]

/-- The indices that `slice` computes from the rounded start and end are those
of the exact start `p * l` and end `p * l + l`, or the page is empty on both
sides; the one exception is page `0` with an infinite page size. -/
theorem indices_ofInt (len : Nat) (hlen : len < 2 ^ 32) (p l : Int)
    (hex : ¬ (p = 0 ∧ JSNumber.ofInt l = JSNumber.inf false)) :
    relativeIndex len ((JSNumber.ofInt p).mul (JSNumber.ofInt l))
        = relativeIndex len (JSNumber.fin (p * l)) ∧
      (relativeIndex len
          (((JSNumber.ofInt p).mul (JSNumber.ofInt l)).add (JSNumber.ofInt l))
          = relativeIndex len (JSNumber.fin (p * l + l)) ∨
        relativeIndex len (JSNumber.fin (p * l)) = len) := by
  have hs := mul_sign_size p l
  have hend := exact_end_of_large_neg p l
  have hzero : relativeIndex len (JSNumber.fin 0) = 0 := by simp [relativeIndex]
  rcases ofInt_form p with ⟨p', hp', hpn, _⟩ | ⟨hp', hpb⟩ | ⟨hp', hpb⟩ <;>
    rcases ofInt_form l with ⟨l', hl', hln, hlr⟩ | ⟨hl', hlb⟩ | ⟨hl', hlb⟩
  · rw [hp', hl']
    exact indices_fin_fin len hlen p l p' l' hpn hln hlr
  · -- finite page, page size +Infinity
    rw [hp', hl']
    have hp0 : p ≠ 0 := fun h => hex ⟨h, hl'⟩
    rcases mul_fin_inf p' false with ⟨h0, _⟩ | ⟨hpos, hm⟩ | ⟨hneg, hm⟩
    · omega
    · rw [hm]
      have : 2 ^ 53 ≤ p * l := by
        generalize p * l = s at *
        rcases hs with hs | hs | hs | hs | hs | hs <;> omega
      have hK := relativeIndex_fin_large len hlen _ this
      exact ⟨by rw [hK]; rfl, Or.inr hK⟩
    · rw [hm]
      have hsl : p * l ≤ -2 ^ 53 := by
        generalize p * l = s at *
        rcases hs with hs | hs | hs | hs | hs | hs <;> omega
      have hK : relativeIndex len (JSNumber.fin (p * l)) = 0 :=
        relativeIndex_fin_of_end len hlen _ (Or.inr (by omega))
      have hF : relativeIndex len (JSNumber.fin (p * l + l)) = 0 :=
        relativeIndex_fin_of_end len hlen _ (by
          rcases hend hsl with h | h
          · exact Or.inl h
          · exact Or.inr (by omega))
      exact ⟨by rw [hK]; rfl, Or.inl (by rw [hF]; rfl)⟩
  · -- finite page, page size -Infinity
    rw [hp', hl']
    rcases mul_fin_inf p' true with ⟨h0, hm⟩ | ⟨hpos, hm⟩ | ⟨hneg, hm⟩
    · rw [hm]
      have hp0 : p = 0 := by omega
      have hs0 : p * l = 0 := by rw [hp0]; ring
      rw [hs0, hzero]
      refine ⟨rfl, Or.inl ?_⟩
      rw [relativeIndex_fin_of_end len hlen _ (Or.inr (by omega))]
      rfl
    · rw [hm]
      have hsl : p * l ≤ -2 ^ 53 := by
        generalize p * l = s at *
        rcases hs with hs | hs | hs | hs | hs | hs <;> omega
      have hK : relativeIndex len (JSNumber.fin (p * l)) = 0 :=
        relativeIndex_fin_of_end len hlen _ (Or.inr (by omega))
      have hF : relativeIndex len (JSNumber.fin (p * l + l)) = 0 :=
        relativeIndex_fin_of_end len hlen _ (by
          rcases hend hsl with h | h
          · exact Or.inl h
          · exact Or.inr (by omega))
      exact ⟨by rw [hK]; rfl, Or.inl (by rw [hF]; rfl)⟩
    · rw [hm]
      have : 2 ^ 53 ≤ p * l := by
        generalize p * l = s at *
        rcases hs with hs | hs | hs | hs | hs | hs <;> omega
      have hK := relativeIndex_fin_large len hlen _ this
      exact ⟨by rw [hK]; rfl, Or.inr hK⟩
  · -- page +Infinity, finite page size
    rw [hp', hl']
    rcases mul_inf_fin false l' with ⟨h0, hm⟩ | ⟨hpos, hm⟩ | ⟨hneg, hm⟩
    · rw [hm]
      have hl0 : l = 0 := by omega
      have hs0 : p * l = 0 := by rw [hl0]; ring
      rw [hs0, hl0, hzero]
      exact ⟨rfl, Or.inl (by rw [show (0 : Int) + 0 = 0 by rfl, hzero]; rfl)⟩
    · rw [hm]
      have : 2 ^ 53 ≤ p * l := by
        generalize p * l = s at *
        rcases hs with hs | hs | hs | hs | hs | hs <;> omega
      have hK := relativeIndex_fin_large len hlen _ this
      exact ⟨by rw [hK]; rfl, Or.inr hK⟩
    · rw [hm]
      have hsl : p * l ≤ -2 ^ 53 := by
        generalize p * l = s at *
        rcases hs with hs | hs | hs | hs | hs | hs <;> omega
      have hK : relativeIndex len (JSNumber.fin (p * l)) = 0 :=
        relativeIndex_fin_of_end len hlen _ (Or.inr (by omega))
      have hF : relativeIndex len (JSNumber.fin (p * l + l)) = 0 :=
        relativeIndex_fin_of_end len hlen _ (by
          rcases hend hsl with h | h
          · exact Or.inl h
          · exact Or.inr (by omega))
      exact ⟨by rw [hK]; rfl, Or.inl (by rw [hF]; rfl)⟩
  · -- page +Infinity, page size +Infinity
    rw [hp', hl']
    have : 2 ^ 53 ≤ p * l := by
      generalize p * l = s at *
      rcases hs with hs | hs | hs | hs | hs | hs <;> omega
    have hK := relativeIndex_fin_large len hlen _ this
    exact ⟨by rw [hK]; rfl, Or.inr hK⟩
  · -- page +Infinity, page size -Infinity
    rw [hp', hl']
    have hsl : p * l ≤ -2 ^ 53 := by
      generalize p * l = s at *
      rcases hs with hs | hs | hs | hs | hs | hs <;> omega
    have hK : relativeIndex len (JSNumber.fin (p * l)) = 0 :=
      relativeIndex_fin_of_end len hlen _ (Or.inr (by omega))
    have hF : relativeIndex len (JSNumber.fin (p * l + l)) = 0 :=
      relativeIndex_fin_of_end len hlen _ (by
        rcases hend hsl with h | h
        · exact Or.inl h
        · exact Or.inr (by omega))
    exact ⟨by rw [hK]; rfl, Or.inl (by rw [hF]; rfl)⟩
  · -- page -Infinity, finite page size
    rw [hp', hl']
    rcases mul_inf_fin true l' with ⟨h0, hm⟩ | ⟨hpos, hm⟩ | ⟨hneg, hm⟩
    · rw [hm]
      have hl0 : l = 0 := by omega
      have hs0 : p * l = 0 := by rw [hl0]; ring
      rw [hs0, hl0, hzero]
      exact ⟨rfl, Or.inl (by rw [show (0 : Int) + 0 = 0 by rfl, hzero]; rfl)⟩
    · rw [hm]
      have hsl : p * l ≤ -2 ^ 53 := by
        generalize p * l = s at *
        rcases hs with hs | hs | hs | hs | hs | hs <;> omega
      have hK : relativeIndex len (JSNumber.fin (p * l)) = 0 :=
        relativeIndex_fin_of_end len hlen _ (Or.inr (by omega))
      have hF : relativeIndex len (JSNumber.fin (p * l + l)) = 0 :=
        relativeIndex_fin_of_end len hlen _ (by
          rcases hend hsl with h | h
          · exact Or.inl h
          · exact Or.inr (by omega))
      exact ⟨by rw [hK]; rfl, Or.inl (by rw [hF]; rfl)⟩
    · rw [hm]
      have : 2 ^ 53 ≤ p * l := by
        generalize p * l = s at *
        rcases hs with hs | hs | hs | hs | hs | hs <;> omega
      have hK := relativeIndex_fin_large len hlen _ this
      exact ⟨by rw [hK]; rfl, Or.inr hK⟩
  · -- page -Infinity, page size +Infinity
    rw [hp', hl']
    have hsl : p * l ≤ -2 ^ 53 := by
      generalize p * l = s at *
      rcases hs with hs | hs | hs | hs | hs | hs <;> omega
    have hK : relativeIndex len (JSNumber.fin (p * l)) = 0 :=
      relativeIndex_fin_of_end len hlen _ (Or.inr (by omega))
    have hF : relativeIndex len (JSNumber.fin (p * l + l)) = 0 :=
      relativeIndex_fin_of_end len hlen _ (by
        rcases hend hsl with h | h
        · exact Or.inl h
        · exact Or.inr (by omega))
    exact ⟨by rw [hK]; rfl, Or.inl (by rw [hF]; rfl)⟩
  · -- page -Infinity, page size -Infinity
    rw [hp', hl']
    have : 2 ^ 53 ≤ p * l := by
      generalize p * l = s at *
      rcases hs with hs | hs | hs | hs | hs | hs <;> omega
    have hK := relativeIndex_fin_large len hlen _ this
    exact ⟨by rw [hK]; rfl, Or.inr hK⟩

/-- The page that `slice` cuts with the rounded start and end is the page of
the exact start `p * l` and end `p * l + l`; the one exception is page `0`
with an infinite page size. -/
theorem slice_ofInt {α : Type} (results : List α) (hlen : results.length < 2 ^ 32)
    (p l : Int) (hex : ¬ (p = 0 ∧ JSNumber.ofInt l = JSNumber.inf false)) :
    slice results ((JSNumber.ofInt p).mul (JSNumber.ofInt l))
        (((JSNumber.ofInt p).mul (JSNumber.ofInt l)).add (JSNumber.ofInt l))
      = slice results (JSNumber.fin (p * l)) (JSNumber.fin (p * l + l)) := by
  obtain ⟨hK, hF⟩ := indices_ofInt results.length hlen p l hex
  unfold slice
  simp only
  rw [hK]
  rcases hF with hF | hF
  · rw [hF]
  · rw [hF, List.drop_length]
    simp

/-- Page `0` with a page size that rounds to `+Infinity` is empty:
`0 * Infinity` is `NaN`. -/
theorem slice_zero_inf {α : Type} (results : List α) (l : Int)
    (hl : JSNumber.ofInt l = JSNumber.inf false) :
    slice results ((JSNumber.ofInt 0).mul (JSNumber.ofInt l))
        (((JSNumber.ofInt 0).mul (JSNumber.ofInt l)).add (JSNumber.ofInt l)) = [] := by
  rw [hl, ofInt_small 0 (by decide) (by decide)]
  simp [slice, JSNumber.mul, JSNumber.add, relativeIndex]

/-- Integers below `2 ^ 1023` in magnitude round to finite numbers. -/
theorem ofInt_ne_inf_of_lt (x : Int) (s : Bool) (h : x.natAbs < 2 ^ 1023) :
    JSNumber.ofInt x ≠ JSNumber.inf s := by
  unfold JSNumber.ofInt
  have hsome : ∃ m, roundNat x.natAbs = some m := by
    rw [roundNat_eq]
    by_cases h1 : x.natAbs < 2 ^ 53
    · exact ⟨_, if_pos h1⟩
    · rw [if_neg h1]
      obtain ⟨a, ha, _, ha2, _, hb, _, _⟩ := roundAt_bounds x.natAbs (by omega)
      have hn : x.natAbs ≠ 0 := by
        intro h0
        rw [h0] at h1
        exact h1 (Nat.two_pow_pos 53)
      have hlog : Nat.log2 x.natAbs < 1023 := (Nat.log2_lt hn).mpr h
      have hpow : 2 ^ (Nat.log2 x.natAbs - 52) ≤ 2 ^ 970 :=
        Nat.pow_le_pow_right (by decide) (by omega)
      have hlt : roundAt (Nat.log2 x.natAbs - 52) x.natAbs < 2 ^ 1024 := by
        rw [ha]
        calc a * 2 ^ (Nat.log2 x.natAbs - 52) ≤ 2 ^ 53 * 2 ^ 970 := Nat.mul_le_mul ha2 hpow
          _ = 2 ^ 1023 := by rw [← Nat.pow_add]
          _ < 2 ^ 1024 := Nat.pow_lt_pow_right (by decide) (by decide)
      exact ⟨_, if_pos hlt⟩
  obtain ⟨m, hm⟩ := hsome
  rw [hm]
  simp

set_option maxRecDepth 100000 in
/-- Values of `parseInt10`: plain numerals, a numeral with a sign and trailing
text, no digit, a numeral above `2 ^ 53` (rounded to the nearest double, ties
to even) and the digit 1 followed by 309 zeros (`+Infinity`). -/
theorem parseInt10_values :
    parseInt10 (str "42") = JSNumber.fin 42 ∧
      parseInt10 (str "  -12ab") = JSNumber.fin (-12) ∧
      parseInt10 (str "") = JSNumber.nan ∧
      parseInt10 (str "abc") = JSNumber.nan ∧
      parseInt10 (str "9007199254740993") = JSNumber.fin 9007199254740992 ∧
      parseInt10 (str "9007199254740995") = JSNumber.fin 9007199254740996 ∧
      parseInt10 (0x31 :: List.replicate 309 0x30) = JSNumber.inf false := by
  decide

/-! ### Sub-sequences -/

theorem searchFilter_sublist (U : UnicodeData) (search : Option JSString)
    (results : List Proverb) : (searchFilter U search results).Sublist results := by
  unfold searchFilter
  split
  · exact List.Sublist.refl _
  · exact List.Sublist.refl _
  · exact List.filter_sublist _

theorem themeFilter_sublist (U : UnicodeData) (theme : Option JSString)
    (results : List Proverb) : (themeFilter U theme results).Sublist results := by
  unfold themeFilter
  split
  · exact List.Sublist.refl _
  · exact List.Sublist.refl _
  · split
    · exact List.filter_sublist _
    · exact List.Sublist.refl _

theorem filtered_length_le (U : UnicodeData) (proverbs : List Proverb)
    (search theme : Option JSString) :
    (themeFilter U theme (searchFilter U search proverbs)).length ≤ proverbs.length :=
  ((themeFilter_sublist U theme _).trans (searchFilter_sublist U search _)).length_le

theorem slice_sublist {α : Type} (l : List α) (startIndex endIndex : JSNumber) :
    (slice l startIndex endIndex).Sublist l := by
  unfold slice
  exact (List.take_sublist _ _).trans (List.drop_sublist _ _)

/-! ### Pagination -/

theorem enumFrom_filter_between {α : Type} (l : List α) :
    ∀ (n : Nat) (lo hi : Int),
      ((l.enumFrom n).filter fun x => decide (lo ≤ (x.1 : Int) ∧ (x.1 : Int) < hi)).map Prod.snd
        = (l.drop (lo - n).toNat).take (hi - max lo n).toNat := by
  induction l with
  | nil => intro n lo hi; simp
  | cons x xs ih =>
    intro n lo hi
    rw [List.enumFrom_cons]
    by_cases h : lo ≤ (n : Int) ∧ (n : Int) < hi
    · rw [List.filter_cons_of_pos (by simpa using h), List.map_cons, ih (n + 1) lo hi]
      have h1 : (lo - n).toNat = 0 := by omega
      have h2 : (lo - ((n + 1 : Nat) : Int)).toNat = 0 := by omega
      have h3 : (hi - max lo n).toNat = (hi - max lo ((n + 1 : Nat) : Int)).toNat + 1 := by omega
      rw [h1, h2, h3]
      simp
    · rw [List.filter_cons_of_neg (by simpa using h), ih (n + 1) lo hi]
      by_cases hlo : (n : Int) < lo
      · have h1 : (lo - n).toNat = (lo - ((n + 1 : Nat) : Int)).toNat + 1 := by omega
        have h3 : (hi - max lo n).toNat = (hi - max lo ((n + 1 : Nat) : Int)).toNat := by omega
        rw [h1, h3]
        simp
      · have h1 : (hi - max lo n).toNat = 0 := by omega
        have h3 : (hi - max lo ((n + 1 : Nat) : Int)).toNat = 0 := by omega
        rw [h1, h3]
        simp

theorem drop_take_eq_positionsBetween {α : Type} (l : List α) (k final : Nat) :
    (l.drop k).take (final - k) = positionsBetween (k : Int) (final : Int) l := by
  unfold positionsBetween List.enum
  rw [enumFrom_filter_between l 0 k final]
  have h1 : ((k : Int) - ((0 : Nat) : Int)).toNat = k := by omega
  have h2 : ((final : Int) - max (k : Int) ((0 : Nat) : Int)).toNat = final - k := by omega
  rw [h1, h2]

theorem positionsBetween_congr {α : Type} (l : List α) (lo hi lo' hi' : Int)
    (h : ∀ i : Nat, i < l.length → ((lo ≤ (i : Int) ∧ (i : Int) < hi) ↔
      (lo' ≤ (i : Int) ∧ (i : Int) < hi'))) :
    positionsBetween lo hi l = positionsBetween lo' hi' l := by
  unfold positionsBetween
  congr 1
  apply List.filter_congr
  intro x hx
  have hlt : x.1 < l.length := by
    have := List.fst_lt_of_mem_enum hx
    exact this
  simp only [decide_eq_decide]
  exact h x.1 hlt

/-- Outside the one exception, the page is cut at the relative indices of the
exact start and end. -/
theorem paginate_proverbs (results : List Proverb) (hlen : results.length < 2 ^ 32)
    (pageIndex pageSize : Int)
    (hex : ¬ (pageIndex = 0 ∧ JSNumber.ofInt pageSize = JSNumber.inf false)) :
    (paginate results (JSNumber.ofInt pageIndex) (JSNumber.ofInt pageSize)).proverbs
      = (results.drop (relativeIndex results.length (JSNumber.fin (pageIndex * pageSize)))).take
          (relativeIndex results.length (JSNumber.fin (pageIndex * pageSize + pageSize))
            - relativeIndex results.length (JSNumber.fin (pageIndex * pageSize))) := by
  show slice results _ _ = _
  rw [slice_ofInt results hlen pageIndex pageSize hex]
  rfl

theorem paginate_zero_inf (results : List Proverb) (pageSize : Int)
    (h : JSNumber.ofInt pageSize = JSNumber.inf false) :
    (paginate results (JSNumber.ofInt 0) (JSNumber.ofInt pageSize)).proverbs = [] :=
  slice_zero_inf results pageSize h

set_option maxRecDepth 100000 in
/-- C6, as stated, fails: with two filtered records, page index -2 and page
size 1 give start -2 and end -1; no position lies in that range, yet the page
holds the record with id 0. -/
theorem paginate_negative_start :
    ((paginate (loadProverbs ucd exampleData) (JSNumber.ofInt (-2))
        (JSNumber.ofInt 1)).proverbs).map Proverb.id = [0] ∧
      positionsBetween ((-2) * 1) ((-2) * 1 + 1) (loadProverbs ucd exampleData) = [] := by
  decide

/-- C6, amended: for every pair of integers, taken as the numbers that
`parseInt` returns for them, and every filtered list of fewer than `2 ^ 32`
records (the bound of a JavaScript array), with
`start = pageIndex * pageSize`, `end = start + pageSize` and `N` the number of
filtered records: a negative `start` or `end` is first counted from the end of
the list (`N + start`, `N + end`, not below 0), and the page is exactly the
filtered records at the positions from the resulting start (inclusive) to the
resulting end (exclusive), in order.  When `start` and `end` are both
non-negative this is the stated arithmetic.  The one exception is page index
`0` with a page size so large that it parses to `+Infinity`: `0 * Infinity` is
`NaN` and the page is empty. -/
theorem paginate_positions (results : List Proverb) (hlen : results.length < 2 ^ 32)
    (pageIndex pageSize : Int) :
    (¬ (pageIndex = 0 ∧ JSNumber.ofInt pageSize = JSNumber.inf false) →
      (paginate results (JSNumber.ofInt pageIndex) (JSNumber.ofInt pageSize)).proverbs
        = positionsBetween
            (if pageIndex * pageSize < 0 then max ((results.length : Int) + pageIndex * pageSize) 0
              else pageIndex * pageSize)
            (if pageIndex * pageSize + pageSize < 0
              then max ((results.length : Int) + (pageIndex * pageSize + pageSize)) 0
              else pageIndex * pageSize + pageSize)
            results) ∧
      (¬ (pageIndex = 0 ∧ JSNumber.ofInt pageSize = JSNumber.inf false) →
        0 ≤ pageIndex * pageSize → 0 ≤ pageIndex * pageSize + pageSize →
        (paginate results (JSNumber.ofInt pageIndex) (JSNumber.ofInt pageSize)).proverbs
          = positionsBetween (pageIndex * pageSize) (pageIndex * pageSize + pageSize) results) ∧
      (pageIndex = 0 → JSNumber.ofInt pageSize = JSNumber.inf false →
        (paginate results (JSNumber.ofInt pageIndex) (JSNumber.ofInt pageSize)).proverbs = []) := by
  have key : ¬ (pageIndex = 0 ∧ JSNumber.ofInt pageSize = JSNumber.inf false) →
      (paginate results (JSNumber.ofInt pageIndex) (JSNumber.ofInt pageSize)).proverbs
        = positionsBetween
            (if pageIndex * pageSize < 0 then max ((results.length : Int) + pageIndex * pageSize) 0
              else pageIndex * pageSize)
            (if pageIndex * pageSize + pageSize < 0
              then max ((results.length : Int) + (pageIndex * pageSize + pageSize)) 0
              else pageIndex * pageSize + pageSize)
            results := by
    intro hex
    rw [paginate_proverbs results hlen pageIndex pageSize hex, drop_take_eq_positionsBetween]
    apply positionsBetween_congr
    intro i hi
    generalize pageIndex * pageSize = start
    simp only [relativeIndex]
    split_ifs <;> omega
  refine ⟨key, ?_, ?_⟩
  · intro hex h1 h2
    rw [key hex, if_neg (by omega), if_neg (by omega)]
  · intro h0 hinf
    rw [h0]
    exact paginate_zero_inf results pageSize hinf

set_option maxRecDepth 100000 in
/-- Instance of the amended C6: page 1 of size 1 of the two example records is
the record at position 1. -/
theorem paginate_positions_witness :
    (paginate (loadProverbs ucd exampleData) (JSNumber.ofInt 1) (JSNumber.ofInt 1)).proverbs
      = positionsBetween (1 * 1) (1 * 1 + 1) (loadProverbs ucd exampleData) :=
  (paginate_positions (loadProverbs ucd exampleData) (by decide) 1 1).2.1 (by decide)
    (by decide) (by decide)

theorem page_length (results : List Proverb) (hlen : results.length < 2 ^ 32) (p L : Nat)
    (hfin : JSNumber.ofInt (L : Int) ≠ JSNumber.inf false) :
    (paginate results (JSNumber.ofInt (p : Int)) (JSNumber.ofInt (L : Int))).proverbs.length
      = min ((p + 1) * L) results.length - min (p * L) results.length := by
  rw [paginate_proverbs results hlen p L (fun h => hfin h.2), List.length_take,
    List.length_drop]
  have h1 : ((p : Int) * (L : Int)) = ((p * L : Nat) : Int) := by push_cast; rfl
  have h2 : (p + 1) * L = p * L + L := by ring
  rw [h1, h2]
  generalize p * L = s
  simp only [relativeIndex]
  split_ifs <;> omega

theorem sum_page_lengths (results : List Proverb) (hlen : results.length < 2 ^ 32) (L k : Nat)
    (hfin : JSNumber.ofInt (L : Int) ≠ JSNumber.inf false) :
    ((List.range k).map fun p : Nat =>
        (paginate results (JSNumber.ofInt (p : Int))
          (JSNumber.ofInt (L : Int))).proverbs.length).sum
      = min (k * L) results.length := by
  induction k with
  | zero => simp
  | succ k ih =>
    rw [List.range_succ, List.map_append, List.sum_append, ih, List.map_singleton,
      List.sum_singleton, page_length results hlen k L hfin]
    have h2 : (k + 1) * L = k * L + L := by ring
    rw [h2]
    omega

theorem le_pages_mul (N L : Nat) (hL : 1 ≤ L) : N ≤ (N + L - 1) / L * L := by
  have h1 := Nat.div_add_mod (N + L - 1) L
  have h2 := Nat.mod_lt (N + L - 1) (show 0 < L by omega)
  rw [Nat.mul_comm] at h1
  generalize (N + L - 1) / L * L = q at h1 ⊢
  generalize (N + L - 1) % L = r at h1 h2
  omega

set_option maxRecDepth 100000 in
/-- C7, as stated, fails: with the two example records and a page size of
`10 ^ 309` (the digit 1 followed by 309 zeros), which parses to `+Infinity`,
there is one page, of index 0; `0 * Infinity` is `NaN`, the page is empty, and
the lengths of the pages add up to 0 while `totalResults` is 2. -/
theorem pages_overflow :
    parseInt10 (0x31 :: List.replicate 309 0x30) = JSNumber.inf false ∧
      (handler ucd (loadProverbs ucd exampleData)
        (Query.mk none none (some (str "0")) (some (0x31 :: List.replicate 309 0x30)))).proverbs
        = [] ∧
      (handler ucd (loadProverbs ucd exampleData)
        (Query.mk none none (some (str "0")) (some (0x31 :: List.replicate 309 0x30)))).totalResults
        = 2 := by
  decide

/-- C7, amended: for a record set of fewer than `2 ^ 32` records (the bound of
a JavaScript array) and a page size `L ≥ 1` that is finite as a number (it
does not round to `+Infinity`, which happens from about `1.8 * 10 ^ 308`), the
lengths of the pages of index `0, 1, ..., ceil(N/L) - 1` of one query add up
to `N`, the number of records that pass the filters. -/
theorem pages_cover_results (U : UnicodeData) (proverbs : List Proverb)
    (search theme : Option JSString) (L : Nat) (hlen : proverbs.length < 2 ^ 32)
    (hL : 1 ≤ L) (hfin : JSNumber.ofInt (L : Int) ≠ JSNumber.inf false) :
    ((List.range (((themeFilter U theme (searchFilter U search proverbs)).length + L - 1) / L)).map
        fun p : Nat =>
          (respond U proverbs search theme (JSNumber.ofInt (p : Int))
            (JSNumber.ofInt (L : Int))).proverbs.length).sum
      = (themeFilter U theme (searchFilter U search proverbs)).length := by
  have hlen' := filtered_length_le U proverbs search theme
  unfold respond
  rw [sum_page_lengths _ (by omega) L _ hfin]
  exact Nat.min_eq_right (le_pages_mul _ L hL)

set_option maxRecDepth 100000 in
/-- Instance of the amended C7: the two example records, unfiltered, in pages
of size 1. -/
theorem pages_cover_results_witness :
    ((List.range (((themeFilter ucd none (searchFilter ucd none
          (loadProverbs ucd exampleData))).length + 1 - 1) / 1)).map
        fun p : Nat =>
          (respond ucd (loadProverbs ucd exampleData) none none (JSNumber.ofInt (p : Int))
            (JSNumber.ofInt ((1 : Nat) : Int))).proverbs.length).sum
      = (themeFilter ucd none (searchFilter ucd none (loadProverbs ucd exampleData))).length :=
  pages_cover_results ucd (loadProverbs ucd exampleData) none none 1 (by decide) (by decide)
    (by decide)

/-- C8: `totalResults` is the number of records that pass the keyword filter
and the theme filter; it is the same for every page index and page size,
`NaN` included. -/
theorem totalResults_independent_of_page (U : UnicodeData) (proverbs : List Proverb)
    (search theme : Option JSString) (pageNum limitNum pageNum' limitNum' : JSNumber) :
    (respond U proverbs search theme pageNum limitNum).totalResults
        = (themeFilter U theme (searchFilter U search proverbs)).length ∧
      (respond U proverbs search theme pageNum limitNum).totalResults
        = (respond U proverbs search theme pageNum' limitNum').totalResults :=
  ⟨rfl, rfl⟩

/-- C9: with `pageIndex ≥ 0`, `pageSize ≥ 1` and `pageIndex * pageSize ≥ N`,
where `N` is the number of filtered records, the response has an empty
`proverbs` list and `totalResults = N`.  The integers are taken as the
numbers that `parseInt` returns for them, and the record set has fewer than
`2 ^ 32` records (the bound of a JavaScript array). -/
theorem out_of_range_page (U : UnicodeData) (proverbs : List Proverb)
    (search theme : Option JSString) (pageIndex pageSize : Int)
    (hlen : proverbs.length < 2 ^ 32) (_ : 0 ≤ pageIndex) (_ : 1 ≤ pageSize)
    (hrange : ((themeFilter U theme (searchFilter U search proverbs)).length : Int)
      ≤ pageIndex * pageSize) :
    (respond U proverbs search theme (JSNumber.ofInt pageIndex)
        (JSNumber.ofInt pageSize)).proverbs = [] ∧
      (respond U proverbs search theme (JSNumber.ofInt pageIndex)
        (JSNumber.ofInt pageSize)).totalResults
        = (themeFilter U theme (searchFilter U search proverbs)).length := by
  refine ⟨?_, rfl⟩
  have hlen' := filtered_length_le U proverbs search theme
  unfold respond
  generalize themeFilter U theme (searchFilter U search proverbs) = results at hrange hlen' ⊢
  by_cases hex : pageIndex = 0 ∧ JSNumber.ofInt pageSize = JSNumber.inf false
  · rw [hex.1]
    exact paginate_zero_inf results pageSize hex.2
  · rw [paginate_proverbs results (by omega) pageIndex pageSize hex]
    generalize pageIndex * pageSize = start at hrange ⊢
    have hk : relativeIndex results.length (JSNumber.fin start) = results.length := by
      simp only [relativeIndex]
      split_ifs <;> omega
    rw [hk, List.drop_length]
    simp

set_option maxRecDepth 100000 in
/-- Instance of C9: page 3 of size 5 of the two example records. -/
theorem out_of_range_page_witness :
    (respond ucd (loadProverbs ucd exampleData) none none (JSNumber.ofInt 3)
        (JSNumber.ofInt 5)).proverbs = [] ∧
      (respond ucd (loadProverbs ucd exampleData) none none (JSNumber.ofInt 3)
        (JSNumber.ofInt 5)).totalResults
        = (themeFilter ucd none (searchFilter ucd none (loadProverbs ucd exampleData))).length :=
  out_of_range_page ucd (loadProverbs ucd exampleData) none none 3 5 (by decide) (by decide)
    (by decide) (by decide)

/-- C10: for every integer page index and every page size `pageSize ≥ 1`, the
returned `proverbs` list has at most `pageSize` elements.  The integers are
taken as the numbers that `parseInt` returns for them, and the record set has
fewer than `2 ^ 32` records (the bound of a JavaScript array). -/
theorem page_length_le_pageSize (U : UnicodeData) (proverbs : List Proverb)
    (search theme : Option JSString) (pageIndex pageSize : Int)
    (hlen : proverbs.length < 2 ^ 32) (hs : 1 ≤ pageSize) :
    ((respond U proverbs search theme (JSNumber.ofInt pageIndex)
        (JSNumber.ofInt pageSize)).proverbs.length : Int) ≤ pageSize := by
  have hlen' := filtered_length_le U proverbs search theme
  unfold respond
  generalize themeFilter U theme (searchFilter U search proverbs) = results at hlen' ⊢
  by_cases hex : pageIndex = 0 ∧ JSNumber.ofInt pageSize = JSNumber.inf false
  · rw [hex.1, paginate_zero_inf results pageSize hex.2]
    simp only [List.length_nil, Nat.cast_zero]
    omega
  · rw [paginate_proverbs results (by omega) pageIndex pageSize hex, List.length_take,
      List.length_drop]
    generalize pageIndex * pageSize = start
    simp only [relativeIndex]
    split_ifs <;> omega

set_option maxRecDepth 100000 in
/-- Instance of C10: page -2 of size 1 of the two example records. -/
theorem page_length_le_pageSize_witness :
    ((respond ucd (loadProverbs ucd exampleData) none none (JSNumber.ofInt (-2))
        (JSNumber.ofInt 1)).proverbs.length : Int) ≤ 1 :=
  page_length_le_pageSize ucd (loadProverbs ucd exampleData) none none (-2) 1 (by decide)
    (by decide)

/-! ### Keyword sets -/

/-- C11: two non-empty searches whose keyword lists hold the same keywords,
in any order and with any repetition, make the keyword filter retain the same
records in the same order. -/
theorem searchFilter_keyword_set (U : UnicodeData) (results : List Proverb)
    (search search' : JSString) (_ : search ≠ []) (_ : search' ≠ [])
    (hsub : ∀ k ∈ keywords U search, k ∈ keywords U search')
    (hsup : ∀ k ∈ keywords U search', k ∈ keywords U search) :
    searchFilter U (some search) results = searchFilter U (some search') results := by
  have hall : ∀ p : Proverb,
      ((keywords U search).all fun keyword => includes (searchableText p) keyword)
        = ((keywords U search').all fun keyword => includes (searchableText p) keyword) := by
    intro p
    rw [Bool.eq_iff_iff, List.all_eq_true, List.all_eq_true]
    exact ⟨fun h k hk => h k (hsup k hk), fun h k hk => h k (hsub k hk)⟩
  cases search with
  | nil => contradiction
  | cons c s =>
    cases search' with
    | nil => contradiction
    | cons c' s' =>
      simp only [searchFilter, hall]

set_option maxRecDepth 100000 in
/-- Instance of C11: the searches `a b` and `b a b` on the example records. -/
theorem searchFilter_keyword_set_witness :
    searchFilter ucd (some (str "a b")) (loadProverbs ucd exampleData)
      = searchFilter ucd (some (str "b a b")) (loadProverbs ucd exampleData) :=
  searchFilter_keyword_set ucd (loadProverbs ucd exampleData) (str "a b") (str "b a b")
    (by decide) (by decide) (by decide) (by decide)

/-! ### Load-time annotation -/

theorem loadProverbs_length (U : UnicodeData) (data : List RawProverb) :
    (loadProverbs U data).length = data.length := by
  simp [loadProverbs]

theorem loadProverbs_getElem (U : UnicodeData) (data : List RawProverb) (i : Nat)
    (h : i < data.length) :
    (loadProverbs U data)[i]? = some (Proverb.mk data[i] i (normalizeText U data[i].kabyle)
      (normalizeText U data[i].francais) (normalizeText U data[i].theme)) := by
  have h' : i < (loadProverbs U data).length := by rw [loadProverbs_length]; exact h
  rw [List.getElem?_eq_getElem h']
  simp [loadProverbs]

theorem loadProverbs_map_id (U : UnicodeData) (data : List RawProverb) :
    (loadProverbs U data).map Proverb.id = List.range data.length := by
  apply List.ext_getElem
  · simp [loadProverbs_length]
  · intro i h1 h2
    simp [loadProverbs]

theorem loadProverbs_map_raw (U : UnicodeData) (data : List RawProverb) :
    (loadProverbs U data).map Proverb.raw = data := by
  apply List.ext_getElem
  · simp [loadProverbs_length]
  · intro i h1 h2
    simp [loadProverbs]

theorem mem_loadProverbs (U : UnicodeData) (data : List RawProverb) (r : Proverb)
    (hr : r ∈ loadProverbs U data) :
    r.kabyle_norm = normalizeText U r.raw.kabyle ∧
      r.francais_norm = normalizeText U r.raw.francais ∧
      r.theme_norm = normalizeText U r.raw.theme := by
  obtain ⟨i, hi, rfl⟩ := List.mem_iff_getElem.mp hr
  simp [loadProverbs]

/-- C12: the annotated list has the length and the order of the raw one; the
record at position `i` is the raw record with `id = i` and the three normal
forms of its raw text fields; its `id` and `*_norm` properties are those
values even when the raw record carries properties of these names, every
other property is the raw record's; and the ids are pairwise distinct. -/
theorem loadProverbs_invariant (U : UnicodeData) (data : List RawProverb) :
    (loadProverbs U data).length = data.length ∧
      (loadProverbs U data).map Proverb.raw = data ∧
      (∀ (i : Nat) (p : RawProverb), data[i]? = some p →
        (loadProverbs U data)[i]? = some (Proverb.mk p i (normalizeText U p.kabyle)
          (normalizeText U p.francais) (normalizeText U p.theme))) ∧
      (∀ r ∈ loadProverbs U data,
        r.property "id" = some (JSValue.num r.id) ∧
        r.property "kabyle_norm" = some (JSValue.str (normalizeText U r.raw.kabyle)) ∧
        r.property "francais_norm" = some (JSValue.str (normalizeText U r.raw.francais)) ∧
        r.property "theme_norm" = some (JSValue.str (normalizeText U r.raw.theme)) ∧
        ∀ key : String, key ∉ ["id", "kabyle_norm", "francais_norm", "theme_norm"] →
          r.property key = r.raw.property key) ∧
      ((loadProverbs U data).map Proverb.id).Nodup := by
  refine ⟨loadProverbs_length U data, loadProverbs_map_raw U data, ?_, ?_, ?_⟩
  · intro i p hp
    obtain ⟨hi, rfl⟩ := List.getElem?_eq_some_iff.mp hp
    exact loadProverbs_getElem U data i hi
  · intro r hr
    obtain ⟨h1, h2, h3⟩ := mem_loadProverbs U data r hr
    refine ⟨rfl, ?_, ?_, ?_, ?_⟩
    · rw [← h1]; rfl
    · rw [← h2]; rfl
    · rw [← h3]; rfl
    · intro key hkey
      simp only [List.mem_cons, List.mem_singleton, List.not_mem_nil, or_false, not_or] at hkey
      simp [Proverb.property, hkey.1, hkey.2.1, hkey.2.2.1, hkey.2.2.2]
  · rw [loadProverbs_map_id]
    exact List.nodup_range _

/-- Instance of C12: a raw record that already carries `id` and `kabyle_norm`
properties; the annotated record at position 0 has `id = 0` and the computed
normal forms. -/
theorem loadProverbs_invariant_witness :
    (loadProverbs ucd
        [RawProverb.mk (some (str "Azul")) none (some (str "Salutations"))
          [("id", JSValue.num 7), ("kabyle_norm", JSValue.str (str "x"))]])[0]?
      = some (Proverb.mk
          (RawProverb.mk (some (str "Azul")) none (some (str "Salutations"))
            [("id", JSValue.num 7), ("kabyle_norm", JSValue.str (str "x"))])
          0 (normalizeText ucd (some (str "Azul"))) (normalizeText ucd none)
          (normalizeText ucd (some (str "Salutations")))) :=
  (loadProverbs_invariant ucd
    [RawProverb.mk (some (str "Azul")) none (some (str "Salutations"))
      [("id", JSValue.num 7), ("kabyle_norm", JSValue.str (str "x"))]]).2.2.1 0 _ rfl

/-! ### Plain strings through the pipeline -/

theorem placeMark_starter (ccc : Nat → Nat) (c : Nat) (hc : ccc c = 0) (l : List Nat) :
    placeMark ccc c l = c :: l := by
  cases l with
  | nil => rfl
  | cons d l =>
    have : ¬ (0 < ccc d ∧ ccc d < ccc c) := by omega
    simp [placeMark, this]

theorem canonicalOrder_of_starters (ccc : Nat → Nat) (l : List Nat)
    (h : ∀ c ∈ l, ccc c = 0) : canonicalOrder ccc l = l := by
  induction l with
  | nil => rfl
  | cons c l ih =>
    rw [canonicalOrder, ih (fun d hd => h d (List.mem_cons_of_mem _ hd)),
      placeMark_starter ccc c (h c (List.mem_cons_self _ _))]

theorem flatMap_eq_self {f : Nat → List Nat} (l : List Nat) (h : ∀ c ∈ l, f c = [c]) :
    l.flatMap f = l := by
  induction l with
  | nil => rfl
  | cons c l ih =>
    rw [List.flatMap_cons, h c (List.mem_cons_self _ _),
      ih (fun d hd => h d (List.mem_cons_of_mem _ hd))]
    rfl

theorem replaceSpecial_eq_self (s : JSString) (h : ∀ c ∈ s, c ∉ specialClass) :
    replaceSpecial s = s := by
  unfold replaceSpecial
  apply flatMap_eq_self
  intro c hc
  rw [if_neg (h c hc)]

theorem stripMarks_eq_self (s : JSString) (h : ∀ c ∈ s, ¬ (0x0300 ≤ c ∧ c ≤ 0x036F)) :
    stripMarks s = s := by
  unfold stripMarks
  rw [List.filter_eq_self]
  intro c hc
  have := h c hc
  simp only [Bool.not_eq_true', Bool.and_eq_false_iff, decide_eq_false_iff_not]
  omega

theorem trim_eq_self (s : JSString) (h : ∀ c ∈ s, isWhiteSpace c = false) : trim s = s := by
  unfold trim
  have h1 : s.dropWhile isWhiteSpace = s := by
    cases s with
    | nil => rfl
    | cons c s => simp [List.dropWhile_cons, h c (List.mem_cons_self _ _)]
  rw [h1, List.rdropWhile_eq_self_iff]
  intro hne
  rw [h _ (List.getLast_mem hne)]
  simp

set_option maxRecDepth 100000 in
theorem fold_special_letter :
    ∀ c ∈ specialLetterTargets.map Prod.fst,
      replaceSpecial (ucd.toLowerCase [c]) = [asciiTarget c] ∧
      ucd.decomposition (asciiTarget c) = [asciiTarget c] ∧
      ucd.combiningClass (asciiTarget c) = 0 ∧
      ¬ (0x0300 ≤ asciiTarget c ∧ asciiTarget c ≤ 0x036F) ∧
      isWhiteSpace (asciiTarget c) = false := by
  decide

theorem ucd_toLowerCase_cons (c : Nat) (s : JSString) :
    ucd.toLowerCase (c :: s) = ucd.toLowerCase [c] ++ ucd.toLowerCase s := by
  simp [ucd]

theorem replaceSpecial_append (s t : JSString) :
    replaceSpecial (s ++ t) = replaceSpecial s ++ replaceSpecial t := by
  simp [replaceSpecial, List.flatMap_append]

theorem replaceSpecial_fold_special (s : JSString)
    (h : ∀ c ∈ s, c ∈ specialLetterTargets.map Prod.fst) :
    replaceSpecial (ucd.toLowerCase s) = s.map asciiTarget := by
  induction s with
  | nil => rfl
  | cons c s ih =>
    rw [ucd_toLowerCase_cons, replaceSpecial_append,
      ih (fun d hd => h d (List.mem_cons_of_mem _ hd)),
      (fold_special_letter c (h c (List.mem_cons_self _ _))).1]
    rfl

set_option maxRecDepth 100000 in
/-- C13: with the database values, `normalizeText` maps every string made only
of the five table letters, in lower or upper case, to the string of the
corresponding ASCII letters in the same order; in particular `Ǧǧ` gives `gg`
and `ẒṬ` gives `zt`. -/
theorem normalizeText_special_letters (s : JSString)
    (h : ∀ c ∈ s, c ∈ specialLetterTargets.map Prod.fst) :
    normalizeText ucd (some s) = s.map asciiTarget ∧
      normalizeText ucd (some (str "Ǧǧ")) = str "gg" ∧
      normalizeText ucd (some (str "ẒṬ")) = str "zt" := by
  refine ⟨?_, by decide, by decide⟩
  cases s with
  | nil => rfl
  | cons c s =>
    show trim (stripMarks (normalizeNFD ucd (replaceSpecial (ucd.toLowerCase (c :: s)))))
      = (c :: s).map asciiTarget
    rw [replaceSpecial_fold_special _ h]
    have hall : ∀ a ∈ (c :: s).map asciiTarget,
        ucd.decomposition a = [a] ∧ ucd.combiningClass a = 0 ∧
        ¬ (0x0300 ≤ a ∧ a ≤ 0x036F) ∧ isWhiteSpace a = false := by
      intro a ha
      obtain ⟨d, hd, rfl⟩ := List.mem_map.mp ha
      exact (fold_special_letter d (h d hd)).2
    unfold normalizeNFD
    rw [flatMap_eq_self _ (fun a ha => (hall a ha).1),
      canonicalOrder_of_starters _ _ (fun a ha => (hall a ha).2.1),
      stripMarks_eq_self _ (fun a ha => (hall a ha).2.2.1),
      trim_eq_self _ (fun a ha => (hall a ha).2.2.2)]

set_option maxRecDepth 100000 in
/-- Instance of C13 on `čČṣẒ`. -/
theorem normalizeText_special_letters_witness :
    normalizeText ucd (some (str "čČṣẒ")) = (str "čČṣẒ").map asciiTarget :=
  (normalizeText_special_letters (str "čČṣẒ") (by decide)).1

/-! ### Shape of a normal form -/

/-- C14: `normalizeText` returns the empty string for an absent input (`null`,
`undefined`) and for the empty string, and it returns a string for every
string: it is a total function. -/
theorem normalizeText_total (U : UnicodeData) :
    normalizeText U none = [] ∧ normalizeText U (some []) = [] ∧
      ∀ s : JSString, ∃ r : JSString, normalizeText U (some s) = r :=
  ⟨rfl, rfl, fun s => ⟨normalizeText U (some s), rfl⟩⟩

theorem mem_placeMark (ccc : Nat → Nat) (c a : Nat) (l : List Nat) :
    a ∈ placeMark ccc c l ↔ a = c ∨ a ∈ l := by
  induction l with
  | nil => simp [placeMark]
  | cons d l ih =>
    by_cases hd : 0 < ccc d ∧ ccc d < ccc c
    · simp only [placeMark, hd, and_self, if_true, List.mem_cons, ih]
      tauto
    · simp only [placeMark, hd, if_false, List.mem_cons]

theorem mem_canonicalOrder (ccc : Nat → Nat) (a : Nat) (l : List Nat) :
    a ∈ canonicalOrder ccc l ↔ a ∈ l := by
  induction l with
  | nil => simp [canonicalOrder]
  | cons c l ih => simp only [canonicalOrder, mem_placeMark, ih, List.mem_cons]

theorem not_mark_of_mem_normalizeText (U : UnicodeData) (x : Option JSString) (c : Nat)
    (hc : c ∈ normalizeText U x) : ¬ (0x0300 ≤ c ∧ c ≤ 0x036F) := by
  rw [← trim_stripMarks_normalizeText] at hc
  have hmem := (trim_sublist _).subset hc
  unfold stripMarks at hmem
  have := (List.mem_filter.mp hmem).2
  simp only [Bool.not_eq_true', Bool.and_eq_false_iff, decide_eq_false_iff_not] at this
  omega

theorem stripMarks_eq_nil (s : JSString) (h : ∀ c ∈ s, 0x0300 ≤ c ∧ c ≤ 0x036F) :
    stripMarks s = [] := by
  unfold stripMarks
  rw [List.filter_eq_nil_iff]
  intro c hc
  have := h c hc
  simp [this.1, this.2]

set_option maxRecDepth 100000 in
/-- C15: no character of a normal form lies in U+0300..U+036F; a base letter
followed only by marks of that range is reduced to the base letter, the base
letter being a lower-case starter with no decomposition that is neither a
table letter nor white space, and the marks decomposing inside the range; and
with the database values `é` gives `e`. -/
theorem normalizeText_strips_marks (U : UnicodeData) :
    (∀ (x : Option JSString), ∀ c ∈ normalizeText U x, ¬ (0x0300 ≤ c ∧ c ≤ 0x036F)) ∧
      (∀ (b : Nat) (marks : List Nat),
        U.toLowerCase (b :: marks) = b :: marks →
        b ∉ specialClass → U.decomposition b = [b] → U.combiningClass b = 0 →
        ¬ (0x0300 ≤ b ∧ b ≤ 0x036F) → isWhiteSpace b = false →
        (∀ m ∈ marks, (0x0300 ≤ m ∧ m ≤ 0x036F) ∧
          ∀ d ∈ U.decomposition m, 0x0300 ≤ d ∧ d ≤ 0x036F) →
        normalizeText U (some (b :: marks)) = [b]) ∧
      normalizeText ucd (some (str "é")) = str "e" := by
  refine ⟨fun x c hc => not_mark_of_mem_normalizeText U x c hc, ?_, by decide⟩
  intro b marks hlower hclass hdecomp hstarter hbase hws hmarks
  show trim (stripMarks (normalizeNFD U (replaceSpecial (U.toLowerCase (b :: marks))))) = [b]
  have hrepl : replaceSpecial (b :: marks) = b :: marks := by
    apply replaceSpecial_eq_self
    intro c hc
    rcases List.mem_cons.mp hc with rfl | hc
    · exact hclass
    · have := (hmarks c hc).1
      simp only [specialClass, List.mem_cons, List.mem_singleton, List.not_mem_nil, or_false]
      omega
  rw [hlower, hrepl]
  unfold normalizeNFD
  rw [List.flatMap_cons, hdecomp]
  show trim (stripMarks (placeMark U.combiningClass b
    (canonicalOrder U.combiningClass (marks.flatMap U.decomposition)))) = [b]
  rw [placeMark_starter _ _ hstarter]
  have htail : stripMarks (canonicalOrder U.combiningClass (marks.flatMap U.decomposition))
      = [] := by
    apply stripMarks_eq_nil
    intro c hc
    rw [mem_canonicalOrder] at hc
    obtain ⟨m, hm, hcm⟩ := List.mem_flatMap.mp hc
    exact (hmarks m hm).2 c hcm
  have hhead : stripMarks (b :: canonicalOrder U.combiningClass (marks.flatMap U.decomposition))
      = b :: stripMarks (canonicalOrder U.combiningClass (marks.flatMap U.decomposition)) := by
    unfold stripMarks
    rw [List.filter_cons_of_pos]
    simp only [Bool.not_eq_true', Bool.and_eq_false_iff, decide_eq_false_iff_not]
    omega
  rw [hhead, htail]
  apply trim_eq_self
  intro c hc
  rw [List.mem_singleton.mp hc]
  exact hws

set_option maxRecDepth 100000 in
/-- Instance of C15: the letter `e` followed by U+0301 and U+0323. -/
theorem normalizeText_strips_marks_witness :
    normalizeText ucd (some [0x65, 0x0301, 0x0323]) = [0x65] :=
  (normalizeText_strips_marks ucd).2.1 0x65 [0x0301, 0x0323] (by decide) (by decide)
    (by decide) (by decide) (by decide) (by decide) (by decide)

theorem dropWhile_trim (s : JSString) : (trim s).dropWhile isWhiteSpace = trim s := by
  unfold trim
  cases hd : s.dropWhile isWhiteSpace with
  | nil => simp
  | cons a l =>
    have hne : s.dropWhile isWhiteSpace ≠ [] := by simp [hd]
    have hhead := List.head_dropWhile_not isWhiteSpace s hne
    simp only [hd, List.head_cons] at hhead
    exact dropWhile_prefix_of_head hhead (List.rdropWhile_prefix _ _)

theorem head_trim (s : JSString) (c : Nat) (h : (trim s).head? = some c) :
    isWhiteSpace c = false := by
  have h1 := dropWhile_trim s
  cases ht : trim s with
  | nil => rw [ht] at h; simp at h
  | cons a t =>
    rw [ht] at h h1
    simp only [List.head?_cons, Option.some.injEq] at h
    subst h
    cases hw : isWhiteSpace a with
    | false => rfl
    | true =>
      rw [List.dropWhile_cons_of_pos hw] at h1
      have hlen := (List.dropWhile_sublist isWhiteSpace (l := t)).length_le
      rw [h1] at hlen
      simp at hlen

theorem getLast_trim (s : JSString) (c : Nat) (h : (trim s).getLast? = some c) :
    isWhiteSpace c = false := by
  have hne : trim s ≠ [] := by
    intro h0
    rw [h0] at h
    simp at h
  have hlast : ¬ isWhiteSpace ((trim s).getLast hne) = true := by
    have := List.rdropWhile_last_not isWhiteSpace (s.dropWhile isWhiteSpace) hne
    exact this
  rw [List.getLast?_eq_getLast _ hne, Option.some.injEq] at h
  rw [← h]
  simpa using hlast

theorem trim_decomposition (s : JSString) :
    ∃ pre post : JSString, s = pre ++ trim s ++ post ∧
      (∀ c ∈ pre, isWhiteSpace c = true) ∧ (∀ c ∈ post, isWhiteSpace c = true) := by
  refine ⟨s.takeWhile isWhiteSpace, (s.dropWhile isWhiteSpace).rtakeWhile isWhiteSpace, ?_,
    fun c hc => List.mem_takeWhile_imp hc, fun c hc => List.mem_rtakeWhile_imp hc⟩
  have h1 : (s.dropWhile isWhiteSpace).rdropWhile isWhiteSpace
      ++ (s.dropWhile isWhiteSpace).rtakeWhile isWhiteSpace = s.dropWhile isWhiteSpace := by
    simp only [List.rdropWhile, List.rtakeWhile, ← List.reverse_append,
      List.takeWhile_append_dropWhile, List.reverse_reverse]
  unfold trim
  rw [List.append_assoc, h1, List.takeWhile_append_dropWhile]

set_option maxRecDepth 100000 in
/-- C16: a normal form neither starts nor ends with a white-space character;
the trim removes only a white-space prefix and a white-space suffix of the
stripped text, so no interior character is removed; and with the database
values the text `abc` between two pairs of spaces gives `abc`. -/
theorem normalizeText_trimmed (U : UnicodeData) (x : Option JSString) :
    (∀ c, (normalizeText U x).head? = some c → isWhiteSpace c = false) ∧
      (∀ c, (normalizeText U x).getLast? = some c → isWhiteSpace c = false) ∧
      (∀ s : JSString, s ≠ [] → ∃ pre post : JSString,
        stripMarks (normalizeNFD U (replaceSpecial (U.toLowerCase s)))
          = pre ++ normalizeText U (some s) ++ post ∧
        (∀ c ∈ pre, isWhiteSpace c = true) ∧ (∀ c ∈ post, isWhiteSpace c = true)) ∧
      normalizeText ucd (some (str "  abc  ")) = str "abc" := by
  refine ⟨?_, ?_, ?_, by decide⟩
  · intro c hc
    rw [← trim_stripMarks_normalizeText] at hc
    exact head_trim _ c hc
  · intro c hc
    rw [← trim_stripMarks_normalizeText] at hc
    exact getLast_trim _ c hc
  · intro s hs
    cases s with
    | nil => exact absurd rfl hs
    | cons a s => exact trim_decomposition _

set_option maxRecDepth 100000 in
/-- Instance of C16: the first character of the normal form of ` Azul ` is `a`,
not a white-space character. -/
theorem normalizeText_trimmed_witness : isWhiteSpace 0x61 = false :=
  (normalizeText_trimmed ucd (some (str " Azul "))).1 0x61 (by decide)

theorem searchFilter_mem_iff (U : UnicodeData) (proverbs : List Proverb)
    (search : JSString) (hs : search ≠ []) (p : Proverb) :
    p ∈ searchFilter U (some search) proverbs ↔
      p ∈ proverbs ∧ ∀ k ∈ keywords U search, k <:+: searchableText p := by
  cases search with
  | nil => exact absurd rfl hs
  | cons c s =>
    simp only [searchFilter, List.mem_filter, List.all_eq_true, includes_iff_infix]

/-! ### Filters -/

/-- C17: a query without theme, one with the empty theme and one with the
theme `tous` give the same response, the one obtained by paginating the
result of the keyword filter alone. -/
theorem theme_sentinel (U : UnicodeData) (proverbs : List Proverb) (search : Option JSString)
    (pageNum limitNum : JSNumber) :
    respond U proverbs search none pageNum limitNum
        = paginate (searchFilter U search proverbs) pageNum limitNum ∧
      respond U proverbs search (some []) pageNum limitNum
        = paginate (searchFilter U search proverbs) pageNum limitNum ∧
      respond U proverbs search (some (str "tous")) pageNum limitNum
        = paginate (searchFilter U search proverbs) pageNum limitNum := by
  refine ⟨rfl, rfl, ?_⟩
  have h : themeFilter U (some (str "tous")) (searchFilter U search proverbs)
      = searchFilter U search proverbs := by
    have hstr : str "tous" = [0x74, 0x6F, 0x75, 0x73] := by decide
    rw [hstr]
    simp [themeFilter, hstr]
  unfold respond
  rw [h]

set_option maxRecDepth 100000 in
/-- C18: a non-empty search that yields no keyword removes no record, as when
the search is absent; a search of blanks and a search made of a combining
mark alone yield no keyword. -/
theorem searchFilter_no_keyword (U : UnicodeData) (results : List Proverb)
    (search : JSString) (_ : search ≠ []) (hk : keywords U search = []) :
    searchFilter U (some search) results = results ∧
      searchFilter U (some search) results = searchFilter U none results ∧
      keywords ucd (str "   ") = [] ∧ keywords ucd [0x0301] = [] := by
  have h : searchFilter U (some search) results = results := by
    cases search with
    | nil => contradiction
    | cons c s => simp [searchFilter, hk]
  exact ⟨h, h, by decide, by decide⟩

set_option maxRecDepth 100000 in
/-- Instance of C18: a search of three blanks on the example records. -/
theorem searchFilter_no_keyword_witness :
    searchFilter ucd (some (str "   ")) (loadProverbs ucd exampleData)
      = loadProverbs ucd exampleData :=
  (searchFilter_no_keyword ucd (loadProverbs ucd exampleData) (str "   ") (by decide)
    (by decide)).1

theorem infix_of_mem_split (sep : Nat) (s : JSString) :
    ∀ p ∈ split sep s, p <:+: s := by
  induction s with
  | nil =>
    intro p hp
    simp only [split, List.mem_singleton] at hp
    rw [hp]
  | cons c s ih =>
    have hne := split_ne_nil sep s
    unfold split
    split
    next h =>
      intro p hp
      rcases List.mem_cons.mp hp with rfl | hp
      · exact List.nil_infix
      · exact (ih p hp).trans (List.suffix_cons c s).isInfix
    next h =>
      cases hs : split sep s with
      | nil => exact absurd hs hne
      | cons w ws =>
        rw [hs] at ih
        intro p hp
        rcases List.mem_cons.mp hp with rfl | hp
        · cases ws with
          | nil =>
            have h1 := intercalate_split sep s
            rw [hs] at h1
            simp only [List.intercalate, List.intersperse_singleton, List.flatten_cons,
              List.flatten_nil, List.append_nil] at h1
            rw [h1]
          | cons w' ws' =>
            have h1 := intercalate_split sep s
            rw [hs] at h1
            simp only [List.intercalate, List.intersperse_cons_cons, List.flatten_cons] at h1
            rw [← h1]
            exact (List.prefix_append (c :: w) _).isInfix
        · exact (ih p (List.mem_cons_of_mem _ hp)).trans (List.suffix_cons c s).isInfix

theorem keyword_infix_normalizeText (U : UnicodeData) (search : JSString) :
    ∀ k ∈ keywords U search, k <:+: normalizeText U (some search) := by
  intro k hk
  unfold keywords at hk
  exact infix_of_mem_split _ _ k (List.mem_filter.mp hk).1

theorem field_infix_searchableText (p : Proverb) :
    p.kabyle_norm <:+: searchableText p ∧ p.francais_norm <:+: searchableText p ∧
      p.theme_norm <:+: searchableText p := by
  unfold searchableText
  refine ⟨?_, ?_, ?_⟩
  · exact ⟨[], [0x20] ++ p.francais_norm ++ [0x20] ++ p.theme_norm, by simp⟩
  · exact ⟨p.kabyle_norm ++ [0x20], [0x20] ++ p.theme_norm, by simp⟩
  · exact ⟨p.kabyle_norm ++ [0x20] ++ p.francais_norm ++ [0x20], [], by simp⟩

/-- C19: in an annotated record set, a record whose raw `kabyle`, `francais`
or `theme` field is a non-empty string `s` is retained by the query with
`search = s` and no theme, so `totalResults` is at least 1. -/
theorem self_search (U : UnicodeData) (data : List RawProverb) (r : Proverb) (s : JSString)
    (pageNum limitNum : JSNumber) (hr : r ∈ loadProverbs U data) (hs : s ≠ [])
    (hfield : r.raw.kabyle = some s ∨ r.raw.francais = some s ∨ r.raw.theme = some s) :
    r ∈ searchFilter U (some s) (loadProverbs U data) ∧
      1 ≤ (respond U (loadProverbs U data) (some s) none pageNum limitNum).totalResults := by
  obtain ⟨hk, hf, ht⟩ := mem_loadProverbs U data r hr
  obtain ⟨ik, ifr, it⟩ := field_infix_searchableText r
  have hinfix : normalizeText U (some s) <:+: searchableText r := by
    rcases hfield with h | h | h
    · rw [← h, ← hk]; exact ik
    · rw [← h, ← hf]; exact ifr
    · rw [← h, ← ht]; exact it
  have hmem : r ∈ searchFilter U (some s) (loadProverbs U data) := by
    rw [(searchFilter_mem_iff U (loadProverbs U data) s hs r)]
    exact ⟨hr, fun k hk' => (keyword_infix_normalizeText U s k hk').trans hinfix⟩
  refine ⟨hmem, ?_⟩
  show 1 ≤ (themeFilter U none (searchFilter U (some s) (loadProverbs U data))).length
  exact List.length_pos_of_mem hmem

set_option maxRecDepth 100000 in
/-- Instance of C19: the second example record found by its own `francais`
field, `Salut à toi`. -/
theorem self_search_witness :
    (loadProverbs ucd exampleData).get ⟨1, by decide⟩
        ∈ searchFilter ucd (some (str "Salut à toi")) (loadProverbs ucd exampleData) ∧
      1 ≤ (respond ucd (loadProverbs ucd exampleData) (some (str "Salut à toi")) none
        (JSNumber.fin 0) (JSNumber.fin 50)).totalResults :=
  self_search ucd exampleData ((loadProverbs ucd exampleData).get ⟨1, by decide⟩)
    (str "Salut à toi") (JSNumber.fin 0) (JSNumber.fin 50) (by decide) (by decide) (by decide)

theorem respond_selection (U : UnicodeData) (data : List RawProverb)
    (search theme : Option JSString) (pageNum limitNum : JSNumber) :
    (respond U (loadProverbs U data) search theme pageNum limitNum).proverbs.Sublist
        (loadProverbs U data) ∧
      (respond U (loadProverbs U data) search theme pageNum limitNum).totalResults
        ≤ data.length := by
  have hf : (themeFilter U theme (searchFilter U search (loadProverbs U data))).Sublist
      (loadProverbs U data) :=
    (themeFilter_sublist U theme _).trans (searchFilter_sublist U search _)
  constructor
  · exact (slice_sublist _ _ _).trans hf
  · have := hf.length_le
    rw [loadProverbs_length] at this
    exact this

/-- C20: for every query, the `proverbs` of the response are a sub-sequence of
the annotated record set (each element is a loaded record, unmodified, in
load order), their ids are strictly increasing, and `totalResults` is at most
the size of the record set. -/
theorem handler_selection (U : UnicodeData) (data : List RawProverb) (q : Query) :
    (handler U (loadProverbs U data) q).proverbs.Sublist (loadProverbs U data) ∧
      (∀ r ∈ (handler U (loadProverbs U data) q).proverbs, r ∈ loadProverbs U data) ∧
      ((handler U (loadProverbs U data) q).proverbs.map Proverb.id).Pairwise (· < ·) ∧
      (handler U (loadProverbs U data) q).totalResults ≤ data.length := by
  have h := respond_selection U data q.search q.theme
    (match q.page with
      | none => JSNumber.fin 0
      | some s => parseInt10 s)
    (match q.limit with
      | none => JSNumber.fin 50
      | some s => parseInt10 s)
  have hsub : (handler U (loadProverbs U data) q).proverbs.Sublist (loadProverbs U data) := h.1
  refine ⟨hsub, fun r hr => hsub.subset hr, ?_, h.2⟩
  have hids : ((handler U (loadProverbs U data) q).proverbs.map Proverb.id).Sublist
      (List.range data.length) := by
    rw [← loadProverbs_map_id U data]
    exact hsub.map _
  exact (List.pairwise_lt_range _).sublist hids

/-! ### Idempotence -/

theorem mem_replaceSpecial (s : JSString) (d : Nat) (hd : d ∈ replaceSpecial s) :
    d ∈ s ∨ ∃ c ∈ specialClass, d ∈ replacement c := by
  unfold replaceSpecial at hd
  obtain ⟨c, hc, hdc⟩ := List.mem_flatMap.mp hd
  by_cases h : c ∈ specialClass
  · rw [if_pos h] at hdc
    exact Or.inr ⟨c, h, hdc⟩
  · rw [if_neg h, List.mem_singleton] at hdc
    rw [hdc]
    exact Or.inl hc

theorem canonicalOrder_of_ordered (ccc : Nat → Nat) (l : List Nat) (h : Ordered ccc l) :
    canonicalOrder ccc l = l := by
  induction l with
  | nil => rfl
  | cons c l ih =>
    rw [canonicalOrder, ih (List.Chain'.tail h)]
    cases l with
    | nil => rfl
    | cons d l =>
      have hcd : ¬ (0 < ccc d ∧ ccc d < ccc c) := (List.chain'_cons.mp h).1
      simp [placeMark, hcd]

theorem infix_trim (s : JSString) : trim s <:+: s := by
  obtain ⟨pre, post, h, _, _⟩ := trim_decomposition s
  exact ⟨pre, post, h.symm⟩

theorem joiner_not_mem_replacement : ∀ c ∈ specialClass, 0x034F ∉ replacement c := by
  decide

/-- C1, amended: for every string `x` that does not contain U+034F (COMBINING
GRAPHEME JOINER), `normalizeText(normalizeText(x))` equals
`normalizeText(x)`.  The Unicode data enters through the facts `UnicodeFacts`,
which hold of the Unicode Character Database. -/
theorem normalizeText_idempotent (U : UnicodeData) (hU : UnicodeFacts U)
    (x : Option JSString) (hx : ∀ s : JSString, x = some s → 0x034F ∉ s) :
    normalizeText U (some (normalizeText U x)) = normalizeText U x := by
  cases x with
  | none => rfl
  | some s =>
    cases s with
    | nil => rfl
    | cons a s' =>
      have hjoin : 0x034F ∉ a :: s' := hx (a :: s') rfl
      -- the code points of the decomposed text
      have hw : ∀ b ∈ replaceSpecial (U.toLowerCase (a :: s')),
          U.toLowerCase [b] = [b] ∧ b ≠ 0x034F := by
        intro b hb
        rcases mem_replaceSpecial _ b hb with h | ⟨c, hc, hbc⟩
        · refine ⟨hU.lower_output _ b h, ?_⟩
          intro h0
          rw [h0] at h
          exact hjoin (hU.joiner_lower _ h)
        · refine ⟨hU.lower_replacement c hc b hbc, ?_⟩
          intro h0
          rw [h0] at hbc
          exact joiner_not_mem_replacement c hc hbc
      have hu : ∀ c ∈ (replaceSpecial (U.toLowerCase (a :: s'))).flatMap U.decomposition,
          U.toLowerCase [c] = [c] ∧ U.decomposition c = [c] ∧
            ((0x0300 ≤ c ∧ c ≤ 0x036F) → 0 < U.combiningClass c) := by
        intro c hc
        obtain ⟨b, hb, hcb⟩ := List.mem_flatMap.mp hc
        obtain ⟨hb1, hb2⟩ := hw b hb
        refine ⟨hU.lower_decomposition b hb1 c hcb, hU.decomposition_full b c hcb, ?_⟩
        intro hr
        apply hU.mark_nonstarter c hr.1 hr.2
        intro h0
        rw [h0] at hcb
        exact hb2 (hU.joiner_decomposition b hcb)
      -- stripping commutes with canonical ordering, so the stripped text is ordered
      have hstrip : stripMarks (normalizeNFD U (replaceSpecial (U.toLowerCase (a :: s'))))
          = canonicalOrder U.combiningClass
              (((replaceSpecial (U.toLowerCase (a :: s'))).flatMap U.decomposition).filter
                (keepUnstripped U.combiningClass)) := by
        rw [canonicalOrder_filter _ _ (keepUnstripped_false U.combiningClass)]
        unfold stripMarks normalizeNFD
        apply List.filter_congr
        intro c hc
        rw [mem_canonicalOrder] at hc
        have h3 := (hu c hc).2.2
        simp only [keepUnstripped]
        by_cases hr : 0x0300 ≤ c ∧ c ≤ 0x036F
        · have := h3 hr
          simp [hr.1, hr.2, this]
        · have : (decide (0x0300 ≤ c) && decide (c ≤ 0x036F)) = false := by
            simp only [Bool.and_eq_false_iff, decide_eq_false_iff_not]
            omega
          rw [this]
          simp
      have hy : normalizeText U (some (a :: s'))
          = trim (stripMarks (normalizeNFD U (replaceSpecial (U.toLowerCase (a :: s'))))) := rfl
      have hord : Ordered U.combiningClass (normalizeText U (some (a :: s'))) := by
        rw [hy]
        apply List.Chain'.infix _ (infix_trim _)
        rw [hstrip]
        exact ordered_canonicalOrder _ _
      have hmem : ∀ c ∈ normalizeText U (some (a :: s')),
          U.toLowerCase [c] = [c] ∧ U.decomposition c = [c] := by
        intro c hc
        rw [hy] at hc
        have h1 := (trim_sublist _).subset hc
        unfold stripMarks at h1
        have h2 := (List.mem_filter.mp h1).1
        unfold normalizeNFD at h2
        rw [mem_canonicalOrder] at h2
        exact ⟨(hu c h2).1, (hu c h2).2.1⟩
      -- the second pass
      generalize hgen : normalizeText U (some (a :: s')) = y at hord hmem
      cases y with
      | nil => rfl
      | cons c t =>
        show trim (stripMarks (normalizeNFD U (replaceSpecial (U.toLowerCase (c :: t)))))
          = c :: t
        rw [hU.lower_fixed _ (fun d hd => (hmem d hd).1)]
        rw [replaceSpecial_eq_self _ (fun d hd hcl =>
          hU.special_decompose d hcl (hmem d hd).2)]
        unfold normalizeNFD
        rw [flatMap_eq_self _ (fun d hd => (hmem d hd).2), canonicalOrder_of_ordered _ _ hord,
          ← hgen, trim_stripMarks_normalizeText]

/-! ### The database values satisfy the facts -/

theorem mem_of_lookup_eq_some {β : Type} (l : List (Nat × β)) (a : Nat) (b : β)
    (h : l.lookup a = some b) : (a, b) ∈ l := by
  induction l with
  | nil => simp at h
  | cons e l ih =>
    obtain ⟨k, v⟩ := e
    rw [List.lookup_cons] at h
    by_cases hk : a = k
    · subst hk
      simp only [beq_self_eq_true, Option.some.injEq] at h
      rw [h]
      exact List.mem_cons_self _ _
    · have : (a == k) = false := by simpa using hk
      rw [this] at h
      exact List.mem_cons_of_mem _ (ih h)

theorem testBit_keyMask {β : Type} (t : List (Nat × β)) (a : Nat) (b : β) (h : (a, b) ∈ t) :
    (keyMask t).testBit a = true := by
  induction t with
  | nil => simp at h
  | cons e t ih =>
    simp only [keyMask, List.foldr_cons, Nat.testBit_or, Bool.or_eq_true]
    rcases List.mem_cons.mp h with h | h
    · left
      rw [← h]
      simp [Nat.testBit_shiftLeft]
    · right
      exact ih h

theorem lookup_of_testBit_keyMask {β : Type} (t : List (Nat × β)) (a : Nat)
    (h : (keyMask t).testBit a = true) : ∃ b, t.lookup a = some b := by
  induction t with
  | nil => simp [keyMask] at h
  | cons e t ih =>
    obtain ⟨k, v⟩ := e
    rw [List.lookup_cons]
    by_cases hk : a = k
    · subst hk
      exact ⟨v, by simp⟩
    · have hne : (a == k) = false := by simpa using hk
      rw [hne]
      apply ih
      simp only [keyMask, List.foldr_cons, Nat.testBit_or, Bool.or_eq_true] at h
      rcases h with h | h
      · exfalso
        simp only [Nat.testBit_shiftLeft, ge_iff_le, Bool.and_eq_true, decide_eq_true_eq] at h
        have h2 := h.2
        rw [Nat.testBit_one_eq_true_iff_self_eq_zero] at h2
        omega
      · exact h

theorem lookup_eq_none_of_testBit {β : Type} (t : List (Nat × β)) (a : Nat)
    (h : (keyMask t).testBit a = false) : t.lookup a = none := by
  cases hl : t.lookup a with
  | none => rfl
  | some b =>
    rw [testBit_keyMask t a b (mem_of_lookup_eq_some t a b hl)] at h
    exact absurd h (by simp)

theorem ucd_toLowerCase_singleton (c : Nat) :
    ucd.toLowerCase [c] = (lowerTable.lookup c).getD [c] := by
  simp [ucd]

set_option maxRecDepth 1000000 in
theorem lowerTable_check :
    (lowerTable.all fun e => e.2 != [e.1] &&
      e.2.all fun d => d != 0x034F && !(keyMask lowerTable).testBit d) = true := by
  decide

set_option maxRecDepth 1000000 in
theorem decompositionTable_check :
    (decompositionTable.all fun e =>
      (e.2.all fun d => d != 0x034F && !(keyMask decompositionTable).testBit d) &&
      ((keyMask lowerTable).testBit e.1 || e.2.all fun d => !(keyMask lowerTable).testBit d))
      = true := by
  decide

set_option maxRecDepth 1000000 in
theorem combiningClassTable_check :
    ((combiningClassTable.all fun e => decide (0 < e.2)) &&
      (List.range 0x70).all fun i =>
        0x0300 + i == 0x034F || (keyMask combiningClassTable).testBit (0x0300 + i)) = true := by
  decide

set_option maxRecDepth 100000 in
theorem ucd_special :
    ∀ c ∈ specialClass,
      ucd.decomposition c ≠ [c] ∧ ∀ d ∈ replacement c, ucd.toLowerCase [d] = [d] := by
  decide

theorem lowerTable_images :
    ∀ e ∈ lowerTable, e.2 ≠ [e.1] ∧ 0x034F ∉ e.2 ∧ ∀ d ∈ e.2, lowerTable.lookup d = none := by
  intro e he
  have h := List.all_eq_true.mp lowerTable_check e he
  simp only [Bool.and_eq_true, List.all_eq_true, bne_iff_ne, ne_eq, Bool.not_eq_true'] at h
  refine ⟨h.1, fun hmem => (h.2 _ hmem).1 rfl, fun d hd => ?_⟩
  exact lookup_eq_none_of_testBit _ _ (h.2 d hd).2

theorem decompositionTable_images :
    ∀ e ∈ decompositionTable, 0x034F ∉ e.2 ∧
      (∀ d ∈ e.2, decompositionTable.lookup d = none) ∧
      (lowerTable.lookup e.1 = none → ∀ d ∈ e.2, lowerTable.lookup d = none) := by
  intro e he
  have h := List.all_eq_true.mp decompositionTable_check e he
  simp only [Bool.and_eq_true, Bool.or_eq_true, List.all_eq_true, bne_iff_ne, ne_eq,
    Bool.not_eq_true'] at h
  refine ⟨fun hmem => (h.1 _ hmem).1 rfl,
    fun d hd => lookup_eq_none_of_testBit _ _ (h.1 d hd).2, fun hnone d hd => ?_⟩
  rcases h.2 with hbit | hall
  · obtain ⟨b, hb⟩ := lookup_of_testBit_keyMask lowerTable e.1 hbit
    rw [hnone] at hb
    exact absurd hb (by simp)
  · exact lookup_eq_none_of_testBit _ _ (hall d hd)

theorem combiningClassTable_marks (c : Nat) (h1 : 0x0300 ≤ c) (h2 : c ≤ 0x036F)
    (h3 : c ≠ 0x034F) : 0 < (combiningClassTable.lookup c).getD 0 := by
  have h := combiningClassTable_check
  simp only [Bool.and_eq_true, List.all_eq_true, decide_eq_true_eq, Bool.or_eq_true,
    beq_iff_eq, List.mem_range] at h
  have hbit := h.2 (c - 0x0300) (by omega)
  rw [show 0x0300 + (c - 0x0300) = c by omega] at hbit
  rcases hbit with hbit | hbit
  · exact absurd hbit h3
  · obtain ⟨b, hb⟩ := lookup_of_testBit_keyMask combiningClassTable c hbit
    rw [hb]
    exact h.1 (c, b) (mem_of_lookup_eq_some _ _ _ hb)

theorem ucd_lower_stable (c : Nat) :
    ucd.toLowerCase [c] = [c] ↔ lowerTable.lookup c = none := by
  rw [ucd_toLowerCase_singleton]
  cases h : lowerTable.lookup c with
  | none => simp
  | some t =>
    have := (lowerTable_images (c, t) (mem_of_lookup_eq_some _ _ _ h)).1
    simp only [Option.getD_some]
    constructor
    · intro h1; exact absurd h1 this
    · intro h1; exact absurd h1 (by simp)

theorem ucd_lower_image (a c : Nat) (h : c ∈ (lowerTable.lookup a).getD [a]) :
    lowerTable.lookup c = none ∧ (c = 0x034F → a = 0x034F) := by
  cases ha : lowerTable.lookup a with
  | none =>
    rw [ha] at h
    simp only [Option.getD_none, List.mem_singleton] at h
    rw [h]
    exact ⟨ha, fun h0 => h0⟩
  | some t =>
    rw [ha] at h
    simp only [Option.getD_some] at h
    obtain ⟨_, h2, h3⟩ := lowerTable_images (a, t) (mem_of_lookup_eq_some _ _ _ ha)
    refine ⟨h3 c h, ?_⟩
    intro h0
    rw [h0] at h
    exact absurd h h2

/-- The database values of the covered blocks satisfy `UnicodeFacts`. -/
theorem ucd_facts : UnicodeFacts ucd where
  lower_output := by
    intro s c hc
    obtain ⟨a, _, hca⟩ := List.mem_flatMap.mp hc
    exact (ucd_lower_stable c).mpr (ucd_lower_image a c hca).1
  lower_fixed := by
    intro s hs
    show s.flatMap (fun c => (lowerTable.lookup c).getD [c]) = s
    apply flatMap_eq_self
    intro c hc
    rw [← ucd_toLowerCase_singleton]
    exact hs c hc
  lower_decomposition := by
    intro c hc d hd
    rw [ucd_lower_stable] at hc ⊢
    change d ∈ (decompositionTable.lookup c).getD [c] at hd
    cases h : decompositionTable.lookup c with
    | none =>
      rw [h] at hd
      simp only [Option.getD_none, List.mem_singleton] at hd
      rw [hd]
      exact hc
    | some t =>
      rw [h] at hd
      simp only [Option.getD_some] at hd
      exact (decompositionTable_images (c, t) (mem_of_lookup_eq_some _ _ _ h)).2.2 hc d hd
  lower_replacement := fun c hc => (ucd_special c hc).2
  decomposition_full := by
    intro c d hd
    change d ∈ (decompositionTable.lookup c).getD [c] at hd
    show (decompositionTable.lookup d).getD [d] = [d]
    cases h : decompositionTable.lookup c with
    | none =>
      rw [h] at hd
      simp only [Option.getD_none, List.mem_singleton] at hd
      rw [hd, h]
      rfl
    | some t =>
      rw [h] at hd
      simp only [Option.getD_some] at hd
      rw [(decompositionTable_images (c, t) (mem_of_lookup_eq_some _ _ _ h)).2.1 d hd]
      rfl
  special_decompose := fun c hc => (ucd_special c hc).1
  mark_nonstarter := combiningClassTable_marks
  joiner_lower := by
    intro s hs
    obtain ⟨a, ha, hca⟩ := List.mem_flatMap.mp hs
    rw [← (ucd_lower_image a _ hca).2 rfl]
    exact ha
  joiner_decomposition := by
    intro c hc
    change 0x034F ∈ (decompositionTable.lookup c).getD [c] at hc
    cases h : decompositionTable.lookup c with
    | none =>
      rw [h] at hc
      simp only [Option.getD_none, List.mem_singleton] at hc
      exact hc.symm
    | some t =>
      rw [h] at hc
      simp only [Option.getD_some] at hc
      exact absurd hc (decompositionTable_images (c, t) (mem_of_lookup_eq_some _ _ _ h)).1

set_option maxRecDepth 100000 in
/-- Instance of the amended C1 on `"  Ǧ É "`, whose normal form is `"g e"`. -/
theorem normalizeText_idempotent_witness :
    normalizeText ucd (some (normalizeText ucd (some (str "  Ǧ É "))))
      = normalizeText ucd (some (str "  Ǧ É ")) :=
  normalizeText_idempotent ucd ucd_facts (some (str "  Ǧ É ")) (by
    intro s hs
    rw [← Option.some.inj hs]
    decide)

end INZAN
